import Mathlib

/-!
# Verification of the transit presence-tracking state machine

Shallow embedding of `src/transit.rs` from the `led-statusboard` repository:
the three-state presence state machine (`TransitState::update_state`) that
infers whether a person is at no particular place, waiting at a regional-rail
station, or riding a train, from the person's live position and a snapshot of
train positions.

Modelling conventions:
* Monotonic instants (`std::time::Instant`) and durations are integers
  counted in seconds (Rust durations are exact integer nanosecond counts, so
  an integer time scale is faithful).  Rust's `Instant` subtraction saturates
  at zero when the right operand is later; `durationSince` mirrors that.
* Distances returned by the oracle are integers as well; the machine only
  ever compares distances with each other, never interpolates them.
* Geographic math (`geoutils::Location::is_in_circle` / `distance_to`) is an
  external crate returning `Result`s; it is embedded as an oracle (`GeoModel`)
  whose methods return `Option` values, `none` meaning the computation failed
  (e.g. a non-finite coordinate).  All state-machine theorems are quantified
  over the oracle.
* `HashMap`s keyed by station or train id are embedded as association lists;
  the source only ever accesses them by key (get / get_mut / insert / remove),
  never by iteration, so the representation is observation-equivalent.
* Rust's `Result` channel plus the `.expect` panic in the `NoStatus` arm are
  embedded as `Except UpdateFailure`, distinguishing `geoError` (an `Err`
  return) from `panicked` (a process abort).
-/

/-- A geographic coordinate as built by `geoutils::Location::new(lat, lon)`. -/
structure Location where
  lat : ℤ
  lon : ℤ
deriving DecidableEq

/-- Modelled from the spec: the station catalog type `RegionalRailStop` lives
in the external `septa_api` crate (only its use sites are in this repository).
It is a closed enum of named stops, each with a fixed coordinate, plus a
sentinel `Unknown(String)` variant whose coordinate cannot be resolved
("an unmapped station id fails with a `GeoResolutionError`"). -/
inductive RegionalRailStop where
  | known (id : ℕ) (loc : Location)
  | unknown (name : String)
deriving DecidableEq

/-- The accessor `RegionalRailStop::lat_lon()`: `some` coordinate for a catalog stop,
`none` (an error) for the unknown sentinel. -/
def RegionalRailStop.lat_lon : RegionalRailStop → Option Location
  | .known _ loc => some loc
  | .unknown _ => none

/-- The `matches!(p, RegionalRailStop::Unknown(_))` test. -/
def RegionalRailStop.isUnknown : RegionalRailStop → Bool
  | .known _ _ => false
  | .unknown _ => true

/-- One entry of the live train snapshot (`septa_api::responses::Train`),
restricted to the fields `update_state` reads. -/
structure Train where
  train_number : String
  lat : ℤ
  lon : ℤ
deriving DecidableEq

/-- The external geographic oracle (`geoutils`).  `none` models the `Err`
case of the crate's `Result` values (non-finite coordinate, non-converging
distance computation, ...). -/
structure GeoModel where
  is_in_circle : Location → Location → ℤ → Option Bool
  distance_to : Location → Location → Option ℤ

/-- Constant `NO_STATUS_TO_AT_STATION`: dwell threshold (seconds) before a station
becomes eligible. -/
def NO_STATUS_TO_AT_STATION : ℤ := 30

/-- Constant `AT_STATION_ENTER_RADIUS` (meters). -/
def AT_STATION_ENTER_RADIUS : ℤ := 200

/-- Constant `AT_STATION_LEAVE_RADIUS` (meters). -/
def AT_STATION_LEAVE_RADIUS : ℤ := 200

/-- Constant `AT_STATION_TO_NO_STATUS_TIMEOUT` (seconds). -/
def AT_STATION_TO_NO_STATUS_TIMEOUT : ℤ := 60

/-- Constant `ON_TRAIN_TO_NO_STATUS_TIMEOUT` (seconds). -/
def ON_TRAIN_TO_NO_STATUS_TIMEOUT : ℤ := 300

/-- Constant `ON_TRAIN_ENTER_RADIUS` (meters). -/
def ON_TRAIN_ENTER_RADIUS : ℤ := 400

/-- Constant `ON_TRAIN_REMAIN_RADIUS` (meters). -/
def ON_TRAIN_REMAIN_RADIUS : ℤ := 400

/-- Rust `Instant` subtraction (`a - b`, i.e. `a.duration_since(b)`): the
elapsed duration, saturating to zero when `b` is later than `a`. -/
def durationSince (a b : ℤ) : ℤ := if a ≤ b then 0 else a - b

/-- Association-list lookup, modelling `HashMap::get`. -/
def alGet {α β : Type} [DecidableEq α] (k : α) : List (α × β) → Option β
  | [] => none
  | (k', v) :: rest => if k' = k then some v else alGet k rest

/-- Replace the value stored at an existing key, modelling the in-place
mutation through `HashMap::get_mut`. -/
def alSet {α β : Type} [DecidableEq α] (k : α) (v : β) : List (α × β) → List (α × β)
  | [] => []
  | (k', v') :: rest => if k' = k then (k', v) :: rest else (k', v') :: alSet k v rest

/-- The operation `HashMap::insert` (in the source always called on an absent key). -/
def alInsert {α β : Type} [DecidableEq α] (k : α) (v : β) (l : List (α × β)) :
    List (α × β) :=
  if (alGet k l).isSome then alSet k v l else l ++ [(k, v)]

/-- The operation `HashMap::remove`. -/
def alRemove {α β : Type} [DecidableEq α] (k : α) : List (α × β) → List (α × β)
  | [] => []
  | (k', v') :: rest => if k' = k then alRemove k rest else (k', v') :: alRemove k rest

/-- Struct `NoStatusTracker`: per-station candidacy clocks. -/
structure NoStatusTracker where
  station_to_first_encounter : List (RegionalRailStop × ℤ)
deriving DecidableEq

/-- Struct `TrainEncounter`: first inside-station / outside-station contact times
with one train. -/
structure TrainEncounter where
  first_encounter_inside_station : Option ℤ
  first_encounter_outside_station : Option ℤ
deriving DecidableEq

/-- Struct `StationTracker`: state carried while the person is at a station. -/
structure StationTracker where
  station : RegionalRailStop
  train_id_to_first_encounter : List (String × TrainEncounter)
  time_outside_station : Option ℤ
deriving DecidableEq

/-- Struct `TrainTracker`: state carried while the person is on a train. -/
structure TrainTracker where
  train_id : String
  last_train_encounter : ℤ
deriving DecidableEq

/-- The presence state machine's tagged union `State`. -/
inductive State where
  | NoStatus (tracker : NoStatusTracker)
  | AtStation (tracker : StationTracker)
  | OnTrain (tracker : TrainTracker)
deriving DecidableEq

/-- Struct `TransitState`: the tracker cell; `none` before the first tick (and, as
the code stands, after a failed tick, since `update_state` takes the state
out before the fallible computation). -/
structure TransitState where
  state : Option State
deriving DecidableEq

/-- How a call to `update_state` can fail: `geoError` is an `Err` returned
through the `anyhow::Result` channel (unresolvable coordinate or failed
geofence math), `panicked` is the process abort raised by the
`.expect("is_in_circle failed")` call in the `NoStatus` arm. -/
inductive UpdateFailure where
  | geoError
  | panicked
deriving DecidableEq

/-- Result of a fallible computation inside `update_state`. -/
abbrev UResult (α : Type) := Except UpdateFailure α

/-- The operation `Option::or` on first-encounter timestamps (`first_write_wins`). -/
def optOr {α : Type} : Option α → Option α → Option α
  | some a, _ => some a
  | none, b => b

/-- Record one classified sample into a `TrainEncounter`
(`first_encounter_…​ = first_encounter_…​.or(Some(now))`). -/
def applyClassification (now : ℤ) (currently_at_station : Bool)
    (enc : TrainEncounter) : TrainEncounter :=
  if currently_at_station then
    { enc with first_encounter_inside_station := optOr enc.first_encounter_inside_station (some now) }
  else
    { enc with first_encounter_outside_station := optOr enc.first_encounter_outside_station (some now) }

/-- The `NoStatus` arm's station loop (`transit.rs` lines 135-161): walk the
(already filtered) catalog, starting/dropping candidacy clocks and collecting
the stations eligible this tick, in iteration order.  A failing `lat_lon()`
propagates as an error (`?`); a failing `is_in_circle` panics (`.expect`). -/
def scanStations (geo : GeoModel) (person : Location) (now : ℤ)
    (tracker : NoStatusTracker) :
    List RegionalRailStop → UResult (NoStatusTracker × List RegionalRailStop)
  | [] => .ok (tracker, [])
  | station :: rest =>
    match station.lat_lon with
    | none => .error .geoError
    | some station_location =>
      match geo.is_in_circle person station_location AT_STATION_ENTER_RADIUS with
      | none => .error .panicked
      | some true =>
        match alGet station tracker.station_to_first_encounter with
        | some first_encounter =>
          if durationSince now first_encounter > NO_STATUS_TO_AT_STATION then
            match scanStations geo person now tracker rest with
            | .error e => .error e
            | .ok (tr', elig) => .ok (tr', station :: elig)
          else
            scanStations geo person now tracker rest
        | none =>
          scanStations geo person now
            { tracker with station_to_first_encounter := alInsert station now tracker.station_to_first_encounter } rest
      | some false =>
        scanStations geo person now
          { tracker with station_to_first_encounter := alRemove station tracker.station_to_first_encounter } rest

/-- The sequence `station.lat_lon()?` followed by `person.distance_to(...)` with
`map_err` — both failures use the error channel. -/
def stationDistance (geo : GeoModel) (person : Location)
    (station : RegionalRailStop) : UResult ℤ :=
  match station.lat_lon with
  | none => .error .geoError
  | some loc =>
    match geo.distance_to person loc with
    | none => .error .geoError
    | some d => .ok d

/-- The closest-eligible-station loop (`transit.rs` lines 186-196): strict
`<` comparison, so ties keep the earlier station. -/
def closestLoop (geo : GeoModel) (person : Location) :
    List RegionalRailStop → RegionalRailStop → ℤ → UResult RegionalRailStop
  | [], best, _ => .ok best
  | station :: rest, best, best_d =>
    match stationDistance geo person station with
    | .error e => .error e
    | .ok d =>
      if d < best_d then closestLoop geo person rest station d
      else closestLoop geo person rest best best_d

/-- The `AtStation` arm's train loop (`transit.rs` lines 247-318): classify
each live train within the 400 m enter radius as an inside-station or
outside-station contact, drop entries for trains outside 400 m, and break at
the first train whose record holds both classifications. -/
def scanTrains (geo : GeoModel) (person : Location) (now : ℤ) :
    List Train → List (String × TrainEncounter) →
    UResult (List (String × TrainEncounter) × Option String)
  | [], m => .ok (m, none)
  | train :: rest, m =>
    match geo.is_in_circle person ⟨train.lat, train.lon⟩ ON_TRAIN_ENTER_RADIUS with
    | none => .error .geoError
    | some false => scanTrains geo person now rest (alRemove train.train_number m)
    | some true =>
      match alGet train.train_number m with
      | some enc =>
        match geo.is_in_circle person ⟨train.lat, train.lon⟩ AT_STATION_LEAVE_RADIUS with
        | none => .error .geoError
        | some currently_at_station =>
          let enc' := applyClassification now currently_at_station enc
          if enc'.first_encounter_inside_station.isSome &&
              enc'.first_encounter_outside_station.isSome then
            .ok (alSet train.train_number enc' m, some train.train_number)
          else
            scanTrains geo person now rest (alSet train.train_number enc' m)
      | none =>
        match geo.is_in_circle person ⟨train.lat, train.lon⟩ AT_STATION_LEAVE_RADIUS with
        | none => .error .geoError
        | some currently_at_station =>
          scanTrains geo person now rest
            (alInsert train.train_number
              (applyClassification now currently_at_station ⟨none, none⟩) m)

/-- The `OnTrain` arm's fallback station search (`transit.rs` lines 353-370):
first catalog station containing the person, iterating the **unfiltered**
catalog (the unknown sentinel is not excluded here). -/
def fallbackStationScan (geo : GeoModel) (person : Location) :
    List RegionalRailStop → UResult (Option RegionalRailStop)
  | [] => .ok none
  | station :: rest =>
    match station.lat_lon with
    | none => .error .geoError
    | some loc =>
      match geo.is_in_circle person loc AT_STATION_ENTER_RADIUS with
      | none => .error .geoError
      | some true => .ok (some station)
      | some false => fallbackStationScan geo person rest

/-- The leave-detection step of the `AtStation` arm (`transit.rs` lines
216-236): decide whether the person is still at the station, updating
`time_outside_station` and computing the `is_outside_location` flag. -/
def leaveCheck (now : ℤ) (inside : Bool) (tracker : StationTracker) :
    StationTracker × Bool :=
  if inside then ({ tracker with time_outside_station := none }, false)
  else
    match tracker.time_outside_station with
    | some first_left =>
      (tracker, decide (durationSince now first_left > AT_STATION_TO_NO_STATUS_TIMEOUT))
    | none => ({ tracker with time_outside_station := some now }, false)

/-- The state-machine transition: the big `match state` expression of
`TransitState::update_state` (`transit.rs` lines 130-401), parameterised by
the geo oracle and the station catalog (iteration order of
`RegionalRailStop::iter()`). -/
def update_state_inner (geo : GeoModel) (catalog : List RegionalRailStop)
    (person_location : Location) (trains : List Train) (now : ℤ) :
    State → UResult State
  | .NoStatus tracker =>
    match scanStations geo person_location now tracker
        (catalog.filter (fun p => !p.isUnknown)) with
    | .error e => .error e
    | .ok (tracker, eligible_stations) =>
      match eligible_stations with
      | [] => .ok (.NoStatus tracker)
      | [station] =>
        .ok (.AtStation ⟨station, [], none⟩)
      | station0 :: _ :: _ =>
        match stationDistance geo person_location station0 with
        | .error e => .error e
        | .ok d0 =>
          match closestLoop geo person_location eligible_stations station0 d0 with
          | .error e => .error e
          | .ok closest_station => .ok (.AtStation ⟨closest_station, [], none⟩)
  | .AtStation tracker =>
    match tracker.station.lat_lon with
    | none => .error .geoError
    | some station_location =>
      match geo.is_in_circle person_location station_location AT_STATION_LEAVE_RADIUS with
      | none => .error .geoError
      | some inside =>
        match leaveCheck now inside tracker with
        | (tracker2, is_outside_location) =>
          if is_outside_location then .ok (.NoStatus ⟨[]⟩)
          else
            match scanTrains geo person_location now trains
                tracker2.train_id_to_first_encounter with
            | .error e => .error e
            | .ok (m', matched) =>
              match matched with
              | some train_id => .ok (.OnTrain ⟨train_id, now⟩)
              | none =>
                .ok (.AtStation { tracker2 with train_id_to_first_encounter := m' })
  | .OnTrain tracker =>
    match trains.find? (fun train => train.train_number == tracker.train_id) with
    | none => .ok (.NoStatus ⟨[]⟩)
    | some train =>
      match geo.is_in_circle person_location ⟨train.lat, train.lon⟩ ON_TRAIN_REMAIN_RADIUS with
      | none => .error .geoError
      | some true => .ok (.OnTrain { tracker with last_train_encounter := now })
      | some false =>
        if durationSince tracker.last_train_encounter now > ON_TRAIN_TO_NO_STATUS_TIMEOUT then
          match fallbackStationScan geo person_location catalog with
          | .error e => .error e
          | .ok (some station) => .ok (.AtStation ⟨station, [], none⟩)
          | .ok none => .ok (.NoStatus ⟨[]⟩)
        else .ok (.OnTrain tracker)

/-- The method `TransitState::update_state`: takes the state out of the cell
(`self.state.take()`, defaulting to a fresh `NoStatus`) and reassigns it only
when the transition succeeds; on failure the `?`/panic fires between the
take and the reassignment, leaving the cell empty. -/
def update_state (geo : GeoModel) (catalog : List RegionalRailStop)
    (self : TransitState) (lat_lon : ℤ × ℤ) (trains : List Train) (now : ℤ) :
    TransitState × UResult Unit :=
  let person_location : Location := ⟨lat_lon.1, lat_lon.2⟩
  let state := self.state.getD (.NoStatus ⟨[]⟩)
  match update_state_inner geo catalog person_location trains now state with
  | .ok s' => (⟨some s'⟩, .ok ())
  | .error e => (⟨none⟩, .error e)

/-! ## Concrete fixtures used by witnesses and counterexamples -/

/-- The person's fixed test position. -/
def locP : Location := ⟨0, 0⟩

/-- Coordinate of test station `stX`. -/
def locX : Location := ⟨1, 0⟩

/-- Coordinate of test station `stY`. -/
def locY : Location := ⟨2, 0⟩

/-- A named catalog stop. -/
def stX : RegionalRailStop := .known 0 locX

/-- A second named catalog stop. -/
def stY : RegionalRailStop := .known 1 locY

/-- The unknown sentinel stop. -/
def stU : RegionalRailStop := .unknown "unmapped"

/-- An oracle on which every geographic computation fails (models non-finite
coordinates fed to `geoutils`). -/
def geoFailAll : GeoModel := ⟨fun _ _ _ => none, fun _ _ => none⟩

/-- An oracle that puts the person inside every circle. -/
def geoInsideAll : GeoModel := ⟨fun _ _ _ => some true, fun _ _ => some 1⟩

/-- An oracle granting containment exactly for the 200 m circles (station
radii) and denying it for the 400 m circles (train radii). -/
def geoByRadius : GeoModel :=
  ⟨fun _ _ r => some (decide (r < 300)), fun _ _ => some 1⟩

/-- An oracle that puts the person outside every circle. -/
def geoOutsideAll : GeoModel := ⟨fun _ _ _ => some false, fun _ _ => some 1⟩

/-- An oracle with containment everywhere and distances depending on the
circle center: station `stY` (center `locY`) is nearer than `stX`. -/
def geoTwoStations : GeoModel :=
  ⟨fun _ _ _ => some true, fun _ c => some (if c = locY then 3 else 7)⟩

/-- An oracle granting containment for the station circle around `locX` and
for the 400 m train circles, but not for 200 m circles around other centers:
a train away from the station classifies as an outside-station contact while
the person stays inside the station geofence. -/
def geoC7 : GeoModel :=
  ⟨fun _ c r => some (decide (c = locX) || decide (300 ≤ r)), fun _ _ => some 1⟩

/-- The distance function realised by `geoTwoStations`. -/
def distTwo : RegionalRailStop → ℤ := fun t => if t = stY then 3 else 7

/-- The eligibility test of the `NoStatus` arm, as a standalone predicate on
the tracker state a tick starts from: the station's coordinate resolves, the
person is inside its 200 m circle, and a candidacy clock exists whose age
strictly exceeds the 30 s dwell threshold. -/
def isEligible (geo : GeoModel) (person : Location) (now : ℤ)
    (tracker : NoStatusTracker) (station : RegionalRailStop) : Bool :=
  match station.lat_lon with
  | none => false
  | some ℓ =>
    match geo.is_in_circle person ℓ AT_STATION_ENTER_RADIUS with
    | some true =>
      match alGet station tracker.station_to_first_encounter with
      | some fe => decide (durationSince now fe > NO_STATUS_TO_AT_STATION)
      | none => false
    | _ => false

/-- Whether the `NoStatus` scan can process a station without failing: its
coordinate resolves and the containment oracle is defined on it. -/
def stationCheckDefined (geo : GeoModel) (person : Location)
    (station : RegionalRailStop) : Bool :=
  match station.lat_lon with
  | none => false
  | some ℓ => (geo.is_in_circle person ℓ AT_STATION_ENTER_RADIUS).isSome

/-- Agreement of two states on the variant and its identifying fields: the
station and leave timestamp for `AtStation`, the whole tracker for `OnTrain`;
the auxiliary candidacy/encounter maps are not compared. -/
def sameIdentity : State → State → Prop
  | .NoStatus _, .NoStatus _ => True
  | .AtStation a, .AtStation b =>
    a.station = b.station ∧ a.time_outside_station = b.time_outside_station
  | .OnTrain a, .OnTrain b => a = b
  | _, _ => False

/-! ## C1, C2: failing inputs for the two state-machine code bugs -/

/-- C1: the claim states that when `update_state` fails with an error, the
presence state observable afterwards is identical to the one before the
call.  The code violates this: `self.state.take()` empties the cell before
the fallible computation, and the `?` operator returns before the
reassignment, so a failed call leaves the cell empty.  Here the call starts
in `OnTrain`, fails with a geo error, and afterwards no state is left. -/
theorem C1_failing_input_state_dropped :
    update_state geoFailAll [stX] ⟨some (.OnTrain ⟨"T", 0⟩)⟩ (0, 0) [⟨"T", 0, 0⟩] 10
      = (⟨none⟩, .error .geoError) ∧
    (⟨none⟩ : TransitState) ≠ ⟨some (.OnTrain ⟨"T", 0⟩)⟩ :=
  ⟨rfl, by decide⟩

/-- C2: the claim states that from `OnTrain`, with the train present but the
person outside the 400 m remain radius, an age of the last contact above
300 s forces a transition to `AtStation`/`NoStatus`.  The code computes the
age as `last_train_encounter - now` — a saturating `Instant` subtraction with
the operands reversed — which is zero whenever `now` is not earlier than the
last contact, so the timeout branch can never fire.  At this input the age is
301 s, the train is present but outside 400 m, and the person is inside
station `stX`'s 200 m geofence: the claim requires `AtStation stX`, but the
code leaves the state `OnTrain` unchanged. -/
theorem C2_failing_input_timeout_never_fires :
    update_state_inner geoByRadius [stX] locP [⟨"T", 9, 9⟩] 301 (.OnTrain ⟨"T", 0⟩)
      = .ok (.OnTrain ⟨"T", 0⟩) ∧
    geoByRadius.is_in_circle locP locX AT_STATION_ENTER_RADIUS = some true ∧
    geoByRadius.is_in_circle locP ⟨9, 9⟩ ON_TRAIN_REMAIN_RADIUS = some false :=
  ⟨rfl, rfl, rfl⟩

/-- C3 counterexample: the `OnTrain` fallback station search does **not**
exclude the unknown sentinel.  With the sentinel first in the catalog the
whole call aborts while resolving the sentinel's coordinate, while with the
sentinel filtered out (what the claim asserts the scan does) the same input
selects station `stX` — so the sentinel is scanned, and its presence is
observable. -/
theorem C3_counterexample_unknown_scanned :
    update_state_inner geoByRadius [stU, stX] locP [⟨"T", 9, 9⟩] 0 (.OnTrain ⟨"T", 400⟩)
      = .error .geoError ∧
    update_state_inner geoByRadius ([stU, stX].filter (fun s => !s.isUnknown)) locP
        [⟨"T", 9, 9⟩] 0 (.OnTrain ⟨"T", 400⟩)
      = .ok (.AtStation ⟨stX, [], none⟩) :=
  ⟨rfl, rfl⟩

/-- C4 counterexample: in the `NoStatus` arm a geofence containment failure
does not surface through the error channel as the claim states: the
`.expect("is_in_circle failed")` call panics instead. -/
theorem C4_counterexample_nostatus_panic :
    update_state_inner geoFailAll [stX] locP [] 0 (.NoStatus ⟨[]⟩) = .error .panicked ∧
    UpdateFailure.panicked ≠ UpdateFailure.geoError :=
  ⟨rfl, by decide⟩

/-- C5 counterexample: a candidacy clock of exactly 30 seconds does not
suffice.  The person is inside `stX`'s radius (oracle `geoInsideAll`), the
clock for `stX` is exactly 30 s old and there is no competing station, yet
the comparison `now - first_encounter > NO_STATUS_TO_AT_STATION` is strict,
so the state stays `NoStatus` instead of becoming `AtStation stX`. -/
theorem C5_counterexample_exactly_30s :
    update_state_inner geoInsideAll [stX] locP [] 30 (.NoStatus ⟨[(stX, 0)]⟩)
      = .ok (.NoStatus ⟨[(stX, 0)]⟩) ∧
    State.NoStatus ⟨[(stX, 0)]⟩ ≠ State.AtStation ⟨stX, [], none⟩ :=
  ⟨rfl, by decide⟩

/-- C10 counterexample: `advance` is not idempotent for fixed inputs.  From
`OnTrain "T"` with the train absent the first application yields a fresh
`NoStatus` with an empty candidacy map; applying `advance` again with the
same snapshot, position and `now` starts a candidacy clock for `stX`,
yielding a different state. -/
theorem C10_counterexample_not_idempotent :
    update_state_inner geoInsideAll [stX] locP [] 7 (.OnTrain ⟨"T", 0⟩)
      = .ok (.NoStatus ⟨[]⟩) ∧
    update_state_inner geoInsideAll [stX] locP [] 7 (.NoStatus ⟨[]⟩)
      = .ok (.NoStatus ⟨[(stX, 7)]⟩) ∧
    State.NoStatus ⟨[]⟩ ≠ State.NoStatus ⟨[(stX, 7)]⟩ :=
  ⟨rfl, rfl, by decide⟩

/-! ## Association-list facts (HashMap access patterns) -/

lemma alGet_alSet_self {α β : Type} [DecidableEq α] (k : α) (v v0 : β)
    (l : List (α × β)) (h : alGet k l = some v0) :
    alGet k (alSet k v l) = some v := by
  induction l with
  | nil => simp [alGet] at h
  | cons p rest ih =>
    obtain ⟨k', v'⟩ := p
    by_cases hk : k' = k
    · subst hk
      simp [alGet, alSet]
    · simp only [alGet, alSet, if_neg hk] at h ⊢
      exact ih h

lemma alSet_of_alGet_eq {α β : Type} [DecidableEq α] (k : α) (v : β)
    (l : List (α × β)) (h : alGet k l = some v) : alSet k v l = l := by
  induction l with
  | nil => rfl
  | cons p rest ih =>
    obtain ⟨k', v'⟩ := p
    by_cases hk : k' = k
    · subst hk
      have h' : v' = v := by simpa [alGet] using h
      simp [alSet, h']
    · simp only [alGet, if_neg hk] at h
      simp [alSet, if_neg hk, ih h]

lemma alGet_alSet_ne {α β : Type} [DecidableEq α] (k k' : α) (v : β)
    (l : List (α × β)) (h : k' ≠ k) : alGet k' (alSet k v l) = alGet k' l := by
  induction l with
  | nil => rfl
  | cons p rest ih =>
    obtain ⟨k0, v0⟩ := p
    by_cases hk : k0 = k
    · subst hk
      have hne : ¬ k0 = k' := fun hc => h (hc ▸ rfl)
      simp [alGet, alSet, hne]
    · by_cases hk2 : k0 = k'
      · subst hk2
        simp [alGet, alSet, if_neg hk]
      · simp [alGet, alSet, if_neg hk, if_neg hk2, ih]

lemma alGet_alInsert_self {α β : Type} [DecidableEq α] (k : α) (v : β)
    (l : List (α × β)) : alGet k (alInsert k v l) = some v := by
  unfold alInsert
  cases hg : alGet k l with
  | some v0 => simpa [hg] using alGet_alSet_self k v v0 l hg
  | none =>
    simp only [hg, Option.isSome_none, Bool.false_eq_true, if_false]
    induction l with
    | nil => simp [alGet]
    | cons p rest ih =>
      obtain ⟨k', v'⟩ := p
      by_cases hk : k' = k
      · subst hk
        simp [alGet] at hg
      · simp only [alGet, if_neg hk] at hg
        simpa [alGet, if_neg hk] using ih hg

lemma alGet_alInsert_ne {α β : Type} [DecidableEq α] (k k' : α) (v : β)
    (l : List (α × β)) (h : k' ≠ k) : alGet k' (alInsert k v l) = alGet k' l := by
  unfold alInsert
  cases hg : alGet k l with
  | some v0 => simpa [hg] using alGet_alSet_ne k k' v l h
  | none =>
    simp only [hg, Option.isSome_none, Bool.false_eq_true, if_false]
    induction l with
    | nil => simp [alGet, if_neg (fun hc : k = k' => h (hc ▸ rfl))]
    | cons p rest ih =>
      obtain ⟨k0, v0⟩ := p
      by_cases hk : k0 = k
      · subst hk
        simp [alGet] at hg
      · simp only [alGet, if_neg hk] at hg ⊢
        by_cases hk2 : k0 = k'
        · simp [hk2]
        · simpa [if_neg hk2] using ih hg

lemma alGet_alRemove_self {α β : Type} [DecidableEq α] (k : α)
    (l : List (α × β)) : alGet k (alRemove k l) = none := by
  induction l with
  | nil => rfl
  | cons p rest ih =>
    obtain ⟨k', v'⟩ := p
    by_cases hk : k' = k
    · simpa [alRemove, hk] using ih
    · simpa [alRemove, alGet, if_neg hk] using ih

lemma alGet_alRemove_ne {α β : Type} [DecidableEq α] (k k' : α)
    (l : List (α × β)) (h : k' ≠ k) : alGet k' (alRemove k l) = alGet k' l := by
  induction l with
  | nil => rfl
  | cons p rest ih =>
    obtain ⟨k0, v0⟩ := p
    by_cases hk : k0 = k
    · subst hk
      have hne : ¬ k0 = k' := fun hc => h (hc ▸ rfl)
      simp [alRemove, alGet, hne, ih]
    · by_cases hk2 : k0 = k'
      · simp [alRemove, alGet, hk2, if_neg hk, if_neg h]
      · simp [alRemove, alGet, if_neg hk, if_neg hk2, ih]

lemma alRemove_of_alGet_none {α β : Type} [DecidableEq α] (k : α)
    (l : List (α × β)) (h : alGet k l = none) : alRemove k l = l := by
  induction l with
  | nil => rfl
  | cons p rest ih =>
    obtain ⟨k', v'⟩ := p
    by_cases hk : k' = k
    · subst hk
      simp [alGet] at h
    · simp only [alGet, if_neg hk] at h
      simp [alRemove, if_neg hk, ih h]

/-- Applying `durationSince` to an instant from itself is zero. -/
lemma durationSince_self (a : ℤ) : durationSince a a = 0 := by
  simp [durationSince]

/-! ## C9: tracked train absent from the snapshot -/

/-- C9: from `OnTrain`, for every input where the tracked train is entirely
absent from the live snapshot, `advance` transitions immediately to a fresh
`NoStatus` with an empty candidacy map, regardless of the elapsed time since
the last contact and of the person's position. -/
theorem C9_train_absent_resets (geo : GeoModel) (catalog : List RegionalRailStop)
    (person : Location) (trains : List Train) (now : ℤ) (tracker : TrainTracker)
    (habsent : ∀ t ∈ trains, t.train_number ≠ tracker.train_id) :
    update_state_inner geo catalog person trains now (.OnTrain tracker)
      = .ok (.NoStatus ⟨[]⟩) := by
  have hfind : trains.find? (fun train => train.train_number == tracker.train_id) = none :=
    List.find?_eq_none.mpr fun t ht => by simpa using habsent t ht
  simp [update_state_inner, hfind]

/-- Witness for C9: a snapshot containing only train `"S"` while the tracker
follows `"T"`. -/
theorem C9_witness :
    (∀ t ∈ ([⟨"S", 0, 0⟩] : List Train), t.train_number ≠ "T") ∧
    update_state_inner geoInsideAll [stX] locP [⟨"S", 0, 0⟩] 5 (.OnTrain ⟨"T", 2⟩)
      = .ok (.NoStatus ⟨[]⟩) :=
  ⟨by decide,
   C9_train_absent_resets geoInsideAll [stX] locP [⟨"S", 0, 0⟩] 5 ⟨"T", 2⟩ (by decide)⟩

/-! ## C8: leaving a station -/

/-- C8: from `AtStation`, while the person is outside the station's 200 m
radius with no matched train, `advance` transitions to a fresh `NoStatus`
exactly at the first tick where the elapsed time since `left_at` was set
exceeds 60 seconds and not at any earlier tick (the state stays `AtStation`
with `left_at` unchanged); a tick with an unset `left_at` merely starts the
clock, and a tick spent back inside the radius clears `left_at`. -/
theorem C8_leave_station_timeout (geo : GeoModel) (catalog : List RegionalRailStop)
    (person : Location) (trains : List Train) (now : ℤ) (tracker : StationTracker)
    (ℓ : Location) (hloc : tracker.station.lat_lon = some ℓ) :
    (geo.is_in_circle person ℓ AT_STATION_LEAVE_RADIUS = some false →
      ∀ t, tracker.time_outside_station = some t →
        (durationSince now t > AT_STATION_TO_NO_STATUS_TIMEOUT →
          update_state_inner geo catalog person trains now (.AtStation tracker)
            = .ok (.NoStatus ⟨[]⟩)) ∧
        (¬ durationSince now t > AT_STATION_TO_NO_STATUS_TIMEOUT →
          ∀ m', scanTrains geo person now trains tracker.train_id_to_first_encounter
              = .ok (m', none) →
            update_state_inner geo catalog person trains now (.AtStation tracker)
              = .ok (.AtStation ⟨tracker.station, m', some t⟩))) ∧
    (geo.is_in_circle person ℓ AT_STATION_LEAVE_RADIUS = some false →
      tracker.time_outside_station = none →
      ∀ m', scanTrains geo person now trains tracker.train_id_to_first_encounter
          = .ok (m', none) →
        update_state_inner geo catalog person trains now (.AtStation tracker)
          = .ok (.AtStation ⟨tracker.station, m', some now⟩)) ∧
    (geo.is_in_circle person ℓ AT_STATION_LEAVE_RADIUS = some true →
      ∀ m', scanTrains geo person now trains tracker.train_id_to_first_encounter
          = .ok (m', none) →
        update_state_inner geo catalog person trains now (.AtStation tracker)
          = .ok (.AtStation ⟨tracker.station, m', none⟩)) := by
  refine ⟨?_, ?_, ?_⟩
  · intro hout t ht
    constructor
    · intro hgt
      simp [update_state_inner, leaveCheck, hloc, hout, ht, hgt]
    · intro hle m' hscan
      simp [update_state_inner, leaveCheck, hloc, hout, ht, hle, hscan]
  · intro hout hnone m' hscan
    simp [update_state_inner, leaveCheck, hloc, hout, hnone, hscan]
  · intro hin m' hscan
    simp [update_state_inner, leaveCheck, hloc, hin, hscan]

/-- Witness for C8: person outside `stX` for 61 seconds with no trains. -/
theorem C8_witness :
    update_state_inner geoOutsideAll [stX] locP [] 61 (.AtStation ⟨stX, [], some 0⟩)
      = .ok (.NoStatus ⟨[]⟩) :=
  ((C8_leave_station_timeout geoOutsideAll [stX] locP [] 61 ⟨stX, [], some 0⟩ locX
      rfl).1 rfl 0 rfl).1 (by decide)

/-! ## C4: which failure channel each arm uses -/

lemma scanTrains_ne_panic (geo : GeoModel) (person : Location) (now : ℤ) :
    ∀ (ts : List Train) (m : List (String × TrainEncounter)),
      scanTrains geo person now ts m ≠ .error .panicked := by
  intro ts
  induction ts with
  | nil => intro m h; simp [scanTrains] at h
  | cons t rest ih =>
    intro m h
    simp only [scanTrains] at h
    repeat' split at h
    all_goals simp_all

lemma fallbackStationScan_ne_panic (geo : GeoModel) (person : Location) :
    ∀ (l : List RegionalRailStop),
      fallbackStationScan geo person l ≠ .error .panicked := by
  intro l
  induction l with
  | nil => intro h; simp [fallbackStationScan] at h
  | cons s rest ih =>
    intro h
    simp only [fallbackStationScan] at h
    repeat' split at h
    all_goals simp_all

lemma stationDistance_ne_panic (geo : GeoModel) (person : Location)
    (station : RegionalRailStop) :
    stationDistance geo person station ≠ .error .panicked := by
  intro h
  simp only [stationDistance] at h
  repeat' split at h
  all_goals simp_all

lemma closestLoop_ne_panic (geo : GeoModel) (person : Location) :
    ∀ (l : List RegionalRailStop) (best : RegionalRailStop) (bd : ℤ),
      closestLoop geo person l best bd ≠ .error .panicked := by
  intro l
  induction l with
  | nil => intro best bd h; simp [closestLoop] at h
  | cons s rest ih =>
    intro best bd h
    simp only [closestLoop] at h
    cases hd : stationDistance geo person s with
    | error e =>
      rw [hd] at h
      simp only at h
      have he : e = .panicked := by simpa using h
      exact stationDistance_ne_panic geo person s (he ▸ hd)
    | ok d =>
      rw [hd] at h
      simp only at h
      split at h
      · exact ih _ _ h
      · exact ih _ _ h

/-- C4 (amended): in the `AtStation` and `OnTrain` arms every geofence
containment or distance-computation failure surfaces as a `GeoResolutionError`
through the call's error result; in the `NoStatus` arm a station-coordinate
resolution failure surfaces the same way, but a geofence containment-check
failure aborts by panic (`.expect`) instead of using the error channel. -/
theorem C4_amended_error_channels :
    (∀ (geo : GeoModel) (catalog : List RegionalRailStop) (person : Location)
        (trains : List Train) (now : ℤ) (tracker : StationTracker),
      update_state_inner geo catalog person trains now (.AtStation tracker)
        ≠ .error .panicked) ∧
    (∀ (geo : GeoModel) (catalog : List RegionalRailStop) (person : Location)
        (trains : List Train) (now : ℤ) (tracker : TrainTracker),
      update_state_inner geo catalog person trains now (.OnTrain tracker)
        ≠ .error .panicked) ∧
    (∀ (geo : GeoModel) (catalog : List RegionalRailStop) (person : Location)
        (trains : List Train) (now : ℤ) (tracker : NoStatusTracker)
        (station : RegionalRailStop) (rest : List RegionalRailStop) (ℓ : Location),
      catalog.filter (fun p => !p.isUnknown) = station :: rest →
      station.lat_lon = some ℓ →
      geo.is_in_circle person ℓ AT_STATION_ENTER_RADIUS = none →
      update_state_inner geo catalog person trains now (.NoStatus tracker)
        = .error .panicked) ∧
    (∀ (geo : GeoModel) (catalog : List RegionalRailStop) (person : Location)
        (trains : List Train) (now : ℤ) (tracker : NoStatusTracker)
        (station : RegionalRailStop) (rest : List RegionalRailStop),
      catalog.filter (fun p => !p.isUnknown) = station :: rest →
      station.lat_lon = none →
      update_state_inner geo catalog person trains now (.NoStatus tracker)
        = .error .geoError) := by
  refine ⟨?_, ?_, ?_, ?_⟩
  · intro geo catalog person trains now tracker h
    simp only [update_state_inner] at h
    cases hl : tracker.station.lat_lon with
    | none => simp [hl] at h
    | some ℓ =>
      cases hc : geo.is_in_circle person ℓ AT_STATION_LEAVE_RADIUS with
      | none => simp [hl, hc] at h
      | some inside =>
        simp only [hl, hc] at h
        rcases hlc : leaveCheck now inside tracker with ⟨tracker2, flag⟩
        rw [hlc] at h
        cases flag with
        | true => simp at h
        | false =>
          simp only at h
          cases hs : scanTrains geo person now trains tracker2.train_id_to_first_encounter with
          | error e =>
            rw [hs] at h
            have he : e = .panicked := by simpa using h
            exact scanTrains_ne_panic geo person now trains _ (he ▸ hs)
          | ok r =>
            rw [hs] at h
            obtain ⟨m', matched⟩ := r
            cases matched <;> simp at h
  · intro geo catalog person trains now tracker h
    simp only [update_state_inner] at h
    cases hf : trains.find? (fun train => train.train_number == tracker.train_id) with
    | none => simp [hf] at h
    | some train =>
      simp only [hf] at h
      cases hc : geo.is_in_circle person ⟨train.lat, train.lon⟩ ON_TRAIN_REMAIN_RADIUS with
      | none => simp [hc] at h
      | some b =>
        simp only [hc] at h
        cases b with
        | true => simp at h
        | false =>
          simp only at h
          split at h
          · cases hfb : fallbackStationScan geo person catalog with
            | error e =>
              rw [hfb] at h
              have he : e = .panicked := by simpa using h
              exact fallbackStationScan_ne_panic geo person catalog (he ▸ hfb)
            | ok r =>
              rw [hfb] at h
              cases r <;> simp at h
          · simp at h
  · intro geo catalog person trains now tracker station rest ℓ hfil hl hc
    simp [update_state_inner, hfil, scanStations, hl, hc]
  · intro geo catalog person trains now tracker station rest hfil hl
    simp [update_state_inner, hfil, scanStations, hl]

/-- Witness for C4 (amended): with every geo computation failing, the
`NoStatus` arm panics on its first containment check. -/
theorem C4_amended_witness :
    update_state_inner geoFailAll [stX] locP [] 0 (.NoStatus ⟨[]⟩) = .error .panicked ∧
    update_state_inner geoFailAll [stX] locP [] 0 (.AtStation ⟨stX, [], none⟩)
      ≠ .error .panicked :=
  ⟨C4_amended_error_channels.2.2.1 geoFailAll [stX] locP [] 0 ⟨[]⟩ stX [] locX rfl rfl rfl,
   C4_amended_error_channels.1 geoFailAll [stX] locP [] 0 ⟨stX, [], none⟩⟩

/-! ## C3: treatment of the unknown sentinel in the two catalog scans -/

lemma lat_lon_isUnknown {s : RegionalRailStop} {ℓ : Location}
    (h : s.lat_lon = some ℓ) : s.isUnknown = false := by
  cases s with
  | known _ _ => rfl
  | unknown _ => simp [RegionalRailStop.lat_lon] at h

/-- C3 (amended): the `NoStatus` station scan excludes the unknown sentinel
(scanning the full catalog is the same as scanning the catalog with the
sentinel filtered out); the `OnTrain` fallback station search does **not**
exclude it: a selected station is never the sentinel (its coordinate cannot
resolve), but reaching the sentinel aborts the call with a geo error instead
of skipping it. -/
theorem C3_amended_unknown_handling :
    (∀ (geo : GeoModel) (catalog : List RegionalRailStop) (person : Location)
        (trains : List Train) (now : ℤ) (tracker : NoStatusTracker),
      update_state_inner geo catalog person trains now (.NoStatus tracker)
        = update_state_inner geo (catalog.filter (fun p => !p.isUnknown)) person
            trains now (.NoStatus tracker)) ∧
    (∀ (geo : GeoModel) (person : Location) (catalog : List RegionalRailStop)
        (station : RegionalRailStop),
      fallbackStationScan geo person catalog = .ok (some station) →
      station.isUnknown = false) ∧
    (∀ (geo : GeoModel) (person : Location) (name : String)
        (rest : List RegionalRailStop),
      fallbackStationScan geo person (.unknown name :: rest) = .error .geoError) := by
  refine ⟨?_, ?_, ?_⟩
  · intro geo catalog person trains now tracker
    simp only [update_state_inner, List.filter_filter, Bool.and_self]
  · intro geo person catalog
    induction catalog with
    | nil => intro station h; simp [fallbackStationScan] at h
    | cons s rest ih =>
      intro station h
      simp only [fallbackStationScan] at h
      cases hl : s.lat_lon with
      | none => simp [hl] at h
      | some ℓ =>
        simp only [hl] at h
        cases hc : geo.is_in_circle person ℓ AT_STATION_ENTER_RADIUS with
        | none => simp [hc] at h
        | some b =>
          simp only [hc] at h
          cases b with
          | true =>
            have hss : s = station := by simpa using h
            exact hss ▸ lat_lon_isUnknown hl
          | false => exact ih station h
  · intro geo person name rest
    rfl

/-- Witness for C3 (amended): the fallback search over a catalog of one known
station selects it, and the selected station is not the sentinel. -/
theorem C3_amended_witness :
    fallbackStationScan geoInsideAll locP [stX] = .ok (some stX) ∧
    stX.isUnknown = false :=
  ⟨rfl, C3_amended_unknown_handling.2.1 geoInsideAll locP [stX] stX rfl⟩

/-! ## C5, C6: eligibility and selection in the NoStatus arm -/

lemma filter_eq_single {α : Type} (p : α → Bool) :
    ∀ (l : List α) (a : α), l.Nodup → a ∈ l → p a = true →
      (∀ x ∈ l, x ≠ a → p x = false) → l.filter p = [a] := by
  intro l
  induction l with
  | nil => intro a _ ha; simp at ha
  | cons x rest ih =>
    intro a hnd hmem hpa hothers
    obtain ⟨hxnot, hnd'⟩ := List.nodup_cons.mp hnd
    rcases List.mem_cons.mp hmem with rfl | hmem'
    · have hrest : rest.filter p = [] := by
        rw [List.filter_eq_nil_iff]
        intro y hy
        have hyne : y ≠ a := fun hya => hxnot (hya ▸ hy)
        simp [hothers y (List.mem_cons_of_mem _ hy) hyne]
      simp [List.filter_cons, hpa, hrest]
    · have hxa : x ≠ a := fun hxx => hxnot (hxx ▸ hmem')
      have hpx : p x = false := hothers x (List.mem_cons_self x rest) hxa
      have hrec := ih a hnd' hmem' hpa
        (fun y hy hyne => hothers y (List.mem_cons_of_mem _ hy) hyne)
      simp [List.filter_cons, hpx, hrec]

/-- Characterization of the `NoStatus` station loop: on a duplicate-free
catalog on which every check is defined, the scan succeeds and collects, in
catalog order, exactly the stations eligible with respect to the tracker the
tick started from. -/
lemma scanStations_characterization (geo : GeoModel) (person : Location) (now : ℤ) :
    ∀ (l : List RegionalRailStop) (tracker : NoStatusTracker),
      l.Nodup →
      (∀ s ∈ l, stationCheckDefined geo person s = true) →
      ∃ tr', scanStations geo person now tracker l
        = .ok (tr', l.filter (isEligible geo person now tracker)) := by
  intro l
  induction l with
  | nil => intro tracker _ _; exact ⟨tracker, rfl⟩
  | cons s rest ih =>
    intro tracker hnd hdef
    obtain ⟨hsnot, hnd'⟩ := List.nodup_cons.mp hnd
    have hdef' : ∀ x ∈ rest, stationCheckDefined geo person x = true :=
      fun x hx => hdef x (List.mem_cons_of_mem _ hx)
    have hs := hdef s (List.mem_cons_self s rest)
    cases hl : s.lat_lon with
    | none => simp [stationCheckDefined, hl] at hs
    | some ℓ =>
      have hcs : (geo.is_in_circle person ℓ AT_STATION_ENTER_RADIUS).isSome := by
        simpa [stationCheckDefined, hl] using hs
      cases hc : geo.is_in_circle person ℓ AT_STATION_ENTER_RADIUS with
      | none => rw [hc] at hcs; simp at hcs
      | some b =>
        cases b with
        | true =>
          cases hg : alGet s tracker.station_to_first_encounter with
          | some fe =>
            obtain ⟨tr', hrec⟩ := ih tracker hnd' hdef'
            by_cases hgt : durationSince now fe > NO_STATUS_TO_AT_STATION
            · refine ⟨tr', ?_⟩
              have hes : isEligible geo person now tracker s = true := by
                simp [isEligible, hl, hc, hg, hgt]
              simp [scanStations, hl, hc, hg, if_pos hgt, hrec, List.filter_cons, hes]
            · refine ⟨tr', ?_⟩
              have hes : isEligible geo person now tracker s = false := by
                simp [isEligible, hl, hc, hg, hgt]
              simp [scanStations, hl, hc, hg, if_neg hgt, hrec, List.filter_cons, hes]
          | none =>
            obtain ⟨tr', hrec⟩ := ih
              { tracker with station_to_first_encounter := alInsert s now tracker.station_to_first_encounter }
              hnd' hdef'
            refine ⟨tr', ?_⟩
            have hfe : rest.filter (isEligible geo person now
                { tracker with station_to_first_encounter := alInsert s now tracker.station_to_first_encounter })
                = rest.filter (isEligible geo person now tracker) := by
              apply List.filter_congr
              intro x hx
              have hxs : x ≠ s := fun hxx => hsnot (hxx ▸ hx)
              simp only [isEligible, alGet_alInsert_ne s x now _ hxs]
            have hes : isEligible geo person now tracker s = false := by
              simp [isEligible, hl, hc, hg]
            simp [scanStations, hl, hc, hg, hrec, hfe, List.filter_cons, hes]
        | false =>
          obtain ⟨tr', hrec⟩ := ih
            { tracker with station_to_first_encounter := alRemove s tracker.station_to_first_encounter }
            hnd' hdef'
          refine ⟨tr', ?_⟩
          have hfe : rest.filter (isEligible geo person now
              { tracker with station_to_first_encounter := alRemove s tracker.station_to_first_encounter })
              = rest.filter (isEligible geo person now tracker) := by
            apply List.filter_congr
            intro x hx
            have hxs : x ≠ s := fun hxx => hsnot (hxx ▸ hx)
            simp only [isEligible, alGet_alRemove_ne s x _ hxs]
          have hes : isEligible geo person now tracker s = false := by
            simp [isEligible, hl, hc]
          simp [scanStations, hl, hc, hrec, hfe, List.filter_cons, hes]

/-- C5 (amended): for every person inside a station's 200 m radius with no
competing eligible station, if that station's candidacy clock exists and the
elapsed time since it started **strictly exceeds** 30 seconds at the current
tick, `advance` from `NoStatus` transitions to `AtStation` for that station
on that tick; a clock of exactly 30 seconds does not suffice. -/
theorem C5_amended_strict_dwell (geo : GeoModel) (catalog : List RegionalRailStop)
    (person : Location) (trains : List Train) (now : ℤ) (tracker : NoStatusTracker)
    (station : RegionalRailStop) (ℓ : Location) (fe : ℤ)
    (hnodup : (catalog.filter (fun p => !p.isUnknown)).Nodup)
    (hdef : ∀ s ∈ catalog.filter (fun p => !p.isUnknown),
      stationCheckDefined geo person s = true)
    (hmem : station ∈ catalog.filter (fun p => !p.isUnknown))
    (hl : station.lat_lon = some ℓ)
    (hin : geo.is_in_circle person ℓ AT_STATION_ENTER_RADIUS = some true)
    (hclock : alGet station tracker.station_to_first_encounter = some fe)
    (hdwell : durationSince now fe > NO_STATUS_TO_AT_STATION)
    (honly : ∀ s ∈ catalog.filter (fun p => !p.isUnknown), s ≠ station →
      isEligible geo person now tracker s = false) :
    update_state_inner geo catalog person trains now (.NoStatus tracker)
      = .ok (.AtStation ⟨station, [], none⟩) := by
  obtain ⟨tr', hscan⟩ :=
    scanStations_characterization geo person now
      (catalog.filter (fun p => !p.isUnknown)) tracker hnodup hdef
  have helig : isEligible geo person now tracker station = true := by
    simp [isEligible, hl, hin, hclock, hdwell]
  have hfil : (catalog.filter (fun p => !p.isUnknown)).filter
      (isEligible geo person now tracker) = [station] :=
    filter_eq_single _ _ _ hnodup hmem helig honly
  simp [update_state_inner, hscan, hfil]

/-- Witness for C5 (amended): a 31-second-old clock for `stX` transitions. -/
theorem C5_amended_witness :
    update_state_inner geoInsideAll [stX] locP [] 31 (.NoStatus ⟨[(stX, 0)]⟩)
      = .ok (.AtStation ⟨stX, [], none⟩) :=
  C5_amended_strict_dwell geoInsideAll [stX] locP [] 31 ⟨[(stX, 0)]⟩ stX locX 0
    (by decide) (by decide) (by decide) rfl rfl rfl (by decide) (by decide)

/-- The closest-station fold keeps the running best under strict `<`: it
returns the earliest station attaining the minimum distance among the running
best and the remaining list. -/
lemma closestLoop_spec (geo : GeoModel) (person : Location) (d : RegionalRailStop → ℤ) :
    ∀ (l : List RegionalRailStop) (best : RegionalRailStop) (bd : ℤ),
      (∀ s ∈ l, stationDistance geo person s = .ok (d s)) → bd = d best →
      ∃ c, closestLoop geo person l best bd = .ok c ∧
        ((c = best ∧ ∀ s ∈ l, d best ≤ d s) ∨
         (∃ pre post, l = pre ++ c :: post ∧ d c < d best ∧
            (∀ s ∈ pre, d c < d s) ∧ (∀ s ∈ post, d c ≤ d s))) := by
  intro l
  induction l with
  | nil =>
    intro best bd _ _
    exact ⟨best, rfl, .inl ⟨rfl, by simp⟩⟩
  | cons s rest ih =>
    intro best bd hd hbd
    have hds : stationDistance geo person s = .ok (d s) := hd s (List.mem_cons_self s rest)
    have hd' : ∀ x ∈ rest, stationDistance geo person x = .ok (d x) :=
      fun x hx => hd x (List.mem_cons_of_mem _ hx)
    subst hbd
    by_cases hlt : d s < d best
    · obtain ⟨c, hc, hcase⟩ := ih s (d s) hd' rfl
      refine ⟨c, by simp [closestLoop, hds, if_pos hlt, hc], ?_⟩
      rcases hcase with ⟨rfl, hall⟩ | ⟨pre, post, heq, hlt2, hpre, hpost⟩
      · exact .inr ⟨[], rest, rfl, hlt, by simp, hall⟩
      · refine .inr ⟨s :: pre, post, by simp [heq], lt_trans hlt2 hlt, ?_, hpost⟩
        intro x hx
        rcases List.mem_cons.mp hx with rfl | hx'
        · exact hlt2
        · exact hpre x hx'
    · obtain ⟨c, hc, hcase⟩ := ih best (d best) hd' rfl
      refine ⟨c, by simp [closestLoop, hds, if_neg hlt, hc], ?_⟩
      rcases hcase with ⟨rfl, hall⟩ | ⟨pre, post, heq, hlt2, hpre, hpost⟩
      · refine .inl ⟨rfl, ?_⟩
        intro x hx
        rcases List.mem_cons.mp hx with rfl | hx'
        · exact le_of_not_lt hlt
        · exact hall x hx'
      · refine .inr ⟨s :: pre, post, by simp [heq], hlt2, ?_, hpost⟩
        intro x hx
        rcases List.mem_cons.mp hx with rfl | hx'
        · exact lt_of_lt_of_le hlt2 (le_of_not_lt hlt)
        · exact hpre x hx'

/-- C6: whenever two or more stations are simultaneously eligible in one
tick, `advance` from `NoStatus` transitions to `AtStation` for the eligible
station with strictly smallest distance to the person, ties resolving to
catalog iteration order: the chosen station is strictly closer than every
eligible station before it and at least as close as every eligible station
after it. -/
theorem C6_closest_eligible_wins (geo : GeoModel) (catalog : List RegionalRailStop)
    (person : Location) (trains : List Train) (now : ℤ) (tracker : NoStatusTracker)
    (d : RegionalRailStop → ℤ) (e0 e1 : RegionalRailStop) (erest : List RegionalRailStop)
    (hnodup : (catalog.filter (fun p => !p.isUnknown)).Nodup)
    (hdef : ∀ s ∈ catalog.filter (fun p => !p.isUnknown),
      stationCheckDefined geo person s = true)
    (helig : (catalog.filter (fun p => !p.isUnknown)).filter
        (isEligible geo person now tracker) = e0 :: e1 :: erest)
    (hd : ∀ s ∈ e0 :: e1 :: erest, stationDistance geo person s = .ok (d s)) :
    ∃ c pre post,
      update_state_inner geo catalog person trains now (.NoStatus tracker)
        = .ok (.AtStation ⟨c, [], none⟩) ∧
      e0 :: e1 :: erest = pre ++ c :: post ∧
      (∀ s ∈ pre, d c < d s) ∧
      (∀ s ∈ post, d c ≤ d s) := by
  obtain ⟨tr', hscan⟩ :=
    scanStations_characterization geo person now
      (catalog.filter (fun p => !p.isUnknown)) tracker hnodup hdef
  rw [helig] at hscan
  have hd0 : stationDistance geo person e0 = .ok (d e0) := hd e0 (by simp)
  obtain ⟨c, hc, hcase⟩ := closestLoop_spec geo person d (e0 :: e1 :: erest) e0 (d e0) hd rfl
  rcases hcase with ⟨rfl, hall⟩ | ⟨pre, post, heq, _, hpre, hpost⟩
  · refine ⟨c, [], e1 :: erest, ?_, rfl, by simp, fun s hs => hall s (by simp [hs])⟩
    simp [update_state_inner, hscan, hd0, hc]
  · refine ⟨c, pre, post, ?_, heq, hpre, hpost⟩
    simp [update_state_inner, hscan, hd0, hc]

/-- Witness for C6: stations `stX` (distance 7) and `stY` (distance 3) both
eligible; the nearer `stY` wins. -/
theorem C6_witness :
    ∃ c pre post,
      update_state_inner geoTwoStations [stX, stY] locP [] 31
          (.NoStatus ⟨[(stX, 0), (stY, 0)]⟩)
        = .ok (.AtStation ⟨c, [], none⟩) ∧
      [stX, stY] = pre ++ c :: post ∧
      (∀ s ∈ pre, distTwo c < distTwo s) ∧
      (∀ s ∈ post, distTwo c ≤ distTwo s) :=
  C6_closest_eligible_wins geoTwoStations [stX, stY] locP [] 31
    ⟨[(stX, 0), (stY, 0)]⟩ distTwo stX stY []
    (by decide) (by decide) (by decide)
    (fun s hs => by fin_cases hs <;> rfl)

/-! ## C7: the AtStation → OnTrain matching rule -/

lemma scanTrains_fire_both (geo : GeoModel) (person : Location) (now : ℤ) :
    ∀ (ts : List Train) (m m' : List (String × TrainEncounter)) (T : String),
      scanTrains geo person now ts m = .ok (m', some T) →
      ∃ enc, alGet T m' = some enc ∧
        enc.first_encounter_inside_station.isSome = true ∧
        enc.first_encounter_outside_station.isSome = true := by
  intro ts
  induction ts with
  | nil => intro m m' T h; simp [scanTrains] at h
  | cons t rest ih =>
    intro m m' T h
    simp only [scanTrains] at h
    cases hc : geo.is_in_circle person ⟨t.lat, t.lon⟩ ON_TRAIN_ENTER_RADIUS with
    | none => simp [hc] at h
    | some b =>
      simp only [hc] at h
      cases b with
      | false => exact ih _ _ _ h
      | true =>
        simp only at h
        cases hg : alGet t.train_number m with
        | some enc =>
          simp only [hg] at h
          cases hc2 : geo.is_in_circle person ⟨t.lat, t.lon⟩ AT_STATION_LEAVE_RADIUS with
          | none => simp [hc2] at h
          | some cls =>
            simp only [hc2] at h
            split at h
            · rename_i hcond
              obtain ⟨hm', hT⟩ : alSet t.train_number (applyClassification now cls enc) m = m'
                  ∧ t.train_number = T := by simpa using h
              obtain ⟨hi, ho⟩ :
                  (applyClassification now cls enc).first_encounter_inside_station.isSome = true
                  ∧ (applyClassification now cls enc).first_encounter_outside_station.isSome = true := by
                simpa using hcond
              refine ⟨applyClassification now cls enc, ?_, hi, ho⟩
              rw [← hm', ← hT]
              exact alGet_alSet_self _ _ enc m hg
            · exact ih _ _ _ h
        | none =>
          simp only [hg] at h
          cases hc2 : geo.is_in_circle person ⟨t.lat, t.lon⟩ AT_STATION_LEAVE_RADIUS with
          | none => simp [hc2] at h
          | some cls =>
            simp only [hc2] at h
            exact ih _ _ _ h

lemma scanTrains_fire_split (geo : GeoModel) (person : Location) (now : ℤ) :
    ∀ (ts : List Train) (m m' : List (String × TrainEncounter)) (T : String),
      scanTrains geo person now ts m = .ok (m', some T) →
      ∃ pre t post mid enc0,
        ts = pre ++ t :: post ∧
        t.train_number = T ∧
        scanTrains geo person now pre m = .ok (mid, none) ∧
        geo.is_in_circle person ⟨t.lat, t.lon⟩ ON_TRAIN_ENTER_RADIUS = some true ∧
        alGet T mid = some enc0 := by
  intro ts
  induction ts with
  | nil => intro m m' T h; simp [scanTrains] at h
  | cons t rest ih =>
    intro m m' T h
    simp only [scanTrains] at h
    cases hc : geo.is_in_circle person ⟨t.lat, t.lon⟩ ON_TRAIN_ENTER_RADIUS with
    | none => simp [hc] at h
    | some b =>
      simp only [hc] at h
      cases b with
      | false =>
        obtain ⟨pre, t', post, mid, enc0, hsplit, hT, hpre, h400, hget⟩ := ih _ _ _ h
        refine ⟨t :: pre, t', post, mid, enc0, by simp [hsplit], hT, ?_, h400, hget⟩
        simp only [scanTrains, hc]
        exact hpre
      | true =>
        simp only at h
        cases hg : alGet t.train_number m with
        | some enc =>
          simp only [hg] at h
          cases hc2 : geo.is_in_circle person ⟨t.lat, t.lon⟩ AT_STATION_LEAVE_RADIUS with
          | none => simp [hc2] at h
          | some cls =>
            simp only [hc2] at h
            split at h
            · rename_i hcond
              obtain ⟨hm', hT⟩ : alSet t.train_number (applyClassification now cls enc) m = m'
                  ∧ t.train_number = T := by simpa using h
              exact ⟨[], t, rest, m, enc, rfl, hT, rfl, hc, hT ▸ hg⟩
            · rename_i hcond
              obtain ⟨pre, t', post, mid, enc0, hsplit, hT, hpre, h400, hget⟩ := ih _ _ _ h
              refine ⟨t :: pre, t', post, mid, enc0, by simp [hsplit], hT, ?_, h400, hget⟩
              simp only [scanTrains, hc, hg, hc2, if_neg hcond]
              exact hpre
        | none =>
          simp only [hg] at h
          cases hc2 : geo.is_in_circle person ⟨t.lat, t.lon⟩ AT_STATION_LEAVE_RADIUS with
          | none => simp [hc2] at h
          | some cls =>
            simp only [hc2] at h
            obtain ⟨pre, t', post, mid, enc0, hsplit, hT, hpre, h400, hget⟩ := ih _ _ _ h
            refine ⟨t :: pre, t', post, mid, enc0, by simp [hsplit], hT, ?_, h400, hget⟩
            simp only [scanTrains, hc, hg, hc2]
            exact hpre

lemma scanTrains_no_fire (geo : GeoModel) (person : Location) (now : ℤ) :
    ∀ (ts : List Train) (m m' : List (String × TrainEncounter)) (res : Option String),
      (ts.map Train.train_number).Nodup →
      (∀ n e, n ∈ ts.map Train.train_number → alGet n m = some e →
        e.first_encounter_inside_station = none ∧
        e.first_encounter_outside_station = none) →
      scanTrains geo person now ts m = .ok (m', res) → res = none := by
  intro ts
  induction ts with
  | nil =>
    intro m m' res _ _ h
    have hmr : m = m' ∧ (none : Option String) = res := by simpa [scanTrains] using h
    exact hmr.2.symm
  | cons t rest ih =>
    intro m m' res hnd hm h
    obtain ⟨hn0, hnd'⟩ : (∀ x ∈ rest, ¬x.train_number = t.train_number)
        ∧ (rest.map Train.train_number).Nodup := by simpa using hnd
    have hn : t.train_number ∉ rest.map Train.train_number := by
      intro hmem
      obtain ⟨x, hx, hxe⟩ := List.mem_map.mp hmem
      exact hn0 x hx hxe
    simp only [scanTrains] at h
    cases hc : geo.is_in_circle person ⟨t.lat, t.lon⟩ ON_TRAIN_ENTER_RADIUS with
    | none => simp [hc] at h
    | some b =>
      simp only [hc] at h
      cases b with
      | false =>
        refine ih _ _ _ hnd' ?_ h
        intro n e hnmem hget
        have hne : n ≠ t.train_number := fun hx => hn (hx ▸ hnmem)
        rw [alGet_alRemove_ne _ _ _ hne] at hget
        exact hm n e (List.mem_cons_of_mem _ hnmem) hget
      | true =>
        simp only at h
        cases hg : alGet t.train_number m with
        | some enc =>
          simp only [hg] at h
          cases hc2 : geo.is_in_circle person ⟨t.lat, t.lon⟩ AT_STATION_LEAVE_RADIUS with
          | none => simp [hc2] at h
          | some cls =>
            simp only [hc2] at h
            obtain ⟨he1, he2⟩ := hm t.train_number enc (List.mem_cons_self _ _) hg
            have hcond : ((applyClassification now cls enc).first_encounter_inside_station.isSome
                && (applyClassification now cls enc).first_encounter_outside_station.isSome) = false := by
              cases cls <;> simp [applyClassification, he1, he2, optOr]
            rw [if_neg (by simp [hcond])] at h
            refine ih _ _ _ hnd' ?_ h
            intro n e hnmem hget
            have hne : n ≠ t.train_number := fun hx => hn (hx ▸ hnmem)
            rw [alGet_alSet_ne _ _ _ _ hne] at hget
            exact hm n e (List.mem_cons_of_mem _ hnmem) hget
        | none =>
          simp only [hg] at h
          cases hc2 : geo.is_in_circle person ⟨t.lat, t.lon⟩ AT_STATION_LEAVE_RADIUS with
          | none => simp [hc2] at h
          | some cls =>
            simp only [hc2] at h
            refine ih _ _ _ hnd' ?_ h
            intro n e hnmem hget
            have hne : n ≠ t.train_number := fun hx => hn (hx ▸ hnmem)
            rw [alGet_alInsert_ne _ _ _ _ hne] at hget
            exact hm n e (List.mem_cons_of_mem _ hnmem) hget

/-- C7: with the person inside the station's radius (so the leave branch is
not taken) and the train loop returning `(m', matched)`: the transition to
`OnTrain` fires exactly for `matched`; a matched train's final record holds
both an inside-station and an outside-station first-timestamp; the matched
train is the first in feed iteration order to qualify (the prefix before it
matches nothing, and its record already existed when it was reached); if no
record carries any classification yet (e.g. a fresh map) a single tick never
matches; and a head train whose updated pre-existing record holds both
classifications is matched immediately. -/
theorem C7_train_match_requires_both (geo : GeoModel) (catalog : List RegionalRailStop)
    (person : Location) (trains : List Train) (now : ℤ) (tracker : StationTracker)
    (ℓ : Location) (m' : List (String × TrainEncounter)) (matched : Option String)
    (hloc : tracker.station.lat_lon = some ℓ)
    (hin : geo.is_in_circle person ℓ AT_STATION_LEAVE_RADIUS = some true)
    (hscan : scanTrains geo person now trains tracker.train_id_to_first_encounter
      = .ok (m', matched)) :
    (∀ T, matched = some T →
      update_state_inner geo catalog person trains now (.AtStation tracker)
        = .ok (.OnTrain ⟨T, now⟩) ∧
      (∃ enc, alGet T m' = some enc ∧
        enc.first_encounter_inside_station.isSome = true ∧
        enc.first_encounter_outside_station.isSome = true) ∧
      (∃ pre t post mid enc0,
        trains = pre ++ t :: post ∧ t.train_number = T ∧
        scanTrains geo person now pre tracker.train_id_to_first_encounter
          = .ok (mid, none) ∧
        geo.is_in_circle person ⟨t.lat, t.lon⟩ ON_TRAIN_ENTER_RADIUS = some true ∧
        alGet T mid = some enc0)) ∧
    (matched = none →
      update_state_inner geo catalog person trains now (.AtStation tracker)
        = .ok (.AtStation ⟨tracker.station, m', none⟩)) ∧
    ((trains.map Train.train_number).Nodup →
     (∀ n e, alGet n tracker.train_id_to_first_encounter = some e →
        e.first_encounter_inside_station = none ∧
        e.first_encounter_outside_station = none) →
      matched = none) ∧
    (∀ t rest enc cls,
      trains = t :: rest →
      geo.is_in_circle person ⟨t.lat, t.lon⟩ ON_TRAIN_ENTER_RADIUS = some true →
      alGet t.train_number tracker.train_id_to_first_encounter = some enc →
      geo.is_in_circle person ⟨t.lat, t.lon⟩ AT_STATION_LEAVE_RADIUS = some cls →
      (applyClassification now cls enc).first_encounter_inside_station.isSome = true →
      (applyClassification now cls enc).first_encounter_outside_station.isSome = true →
      matched = some t.train_number) := by
  refine ⟨?_, ?_, ?_, ?_⟩
  · intro T hT
    subst hT
    refine ⟨?_, scanTrains_fire_both geo person now trains _ m' T hscan,
      scanTrains_fire_split geo person now trains _ m' T hscan⟩
    simp [update_state_inner, leaveCheck, hloc, hin, hscan]
  · intro hnone
    subst hnone
    simp [update_state_inner, leaveCheck, hloc, hin, hscan]
  · intro hnd hempty
    exact scanTrains_no_fire geo person now trains _ m' matched hnd
      (fun n e _ hg => hempty n e hg) hscan
  · intro t rest enc cls ht h400 hg hcls hi ho
    subst ht
    simp only [scanTrains, h400, hg, hcls, hi, ho, Bool.and_self, if_true] at hscan
    have hpair : alSet t.train_number (applyClassification now cls enc)
          tracker.train_id_to_first_encounter = m'
        ∧ some t.train_number = matched := by simpa using hscan
    exact hpair.2.symm

/-- Witness for C7: train `"T"` has an inside-station record from an earlier
tick; an outside-station contact this tick completes both classifications
and the state becomes `OnTrain "T"`. -/
theorem C7_witness :
    update_state_inner geoC7 [stX] locP [⟨"T", 9, 9⟩] 8
        (.AtStation ⟨stX, [("T", ⟨some 5, none⟩)], none⟩)
      = .ok (.OnTrain ⟨"T", 8⟩) :=
  ((C7_train_match_requires_both geoC7 [stX] locP [⟨"T", 9, 9⟩] 8
      ⟨stX, [("T", ⟨some 5, none⟩)], none⟩ locX
      [("T", ⟨some 5, some 8⟩)] (some "T") rfl rfl rfl).1 "T" rfl).1

/-! ## C10: what a second tick with identical inputs can change -/

lemma scanStations_preserve (geo : GeoModel) (person : Location) (now : ℤ)
    (s : RegionalRailStop) (ℓ : Location) (rv : Option ℤ)
    (hl : s.lat_lon = some ℓ)
    (hb : (geo.is_in_circle person ℓ AT_STATION_ENTER_RADIUS = some true ∧ rv.isSome = true)
        ∨ (geo.is_in_circle person ℓ AT_STATION_ENTER_RADIUS = some false ∧ rv = none)) :
    ∀ (l : List RegionalRailStop) (tracker tr1 : NoStatusTracker)
      (e : List RegionalRailStop),
      alGet s tracker.station_to_first_encounter = rv →
      scanStations geo person now tracker l = .ok (tr1, e) →
      alGet s tr1.station_to_first_encounter = rv := by
  intro l
  induction l with
  | nil =>
    intro tracker tr1 e hget h
    obtain ⟨h1, _⟩ : tracker = tr1 ∧ ([] : List RegionalRailStop) = e := by
      simpa [scanStations] using h
    exact h1 ▸ hget
  | cons s' rest ih =>
    intro tracker tr1 e hget h
    simp only [scanStations] at h
    by_cases hss : s' = s
    · subst hss
      simp only [hl] at h
      rcases hb with ⟨hin, hsome⟩ | ⟨hout, hnone⟩
      · simp only [hin] at h
        obtain ⟨v, hv⟩ := Option.isSome_iff_exists.mp hsome
        subst hv
        simp only [hget] at h
        split at h
        · cases hrec : scanStations geo person now tracker rest with
          | error e' => rw [hrec] at h; simp at h
          | ok p =>
            obtain ⟨tr', elig⟩ := p
            rw [hrec] at h
            simp only at h
            obtain ⟨h1, _⟩ : tr' = tr1 ∧ s' :: elig = e := by simpa using h
            exact h1 ▸ ih tracker tr' _ hget hrec
        · exact ih tracker tr1 e hget h
      · subst hnone
        simp only [hout] at h
        refine ih _ tr1 e ?_ h
        simpa using alGet_alRemove_self s' tracker.station_to_first_encounter
    · have hss2 : s ≠ s' := fun hx => hss hx.symm
      cases hl' : s'.lat_lon with
      | none => simp [hl'] at h
      | some ℓ' =>
        simp only [hl'] at h
        cases hc' : geo.is_in_circle person ℓ' AT_STATION_ENTER_RADIUS with
        | none => simp [hc'] at h
        | some b' =>
          simp only [hc'] at h
          cases b' with
          | true =>
            simp only at h
            cases hg' : alGet s' tracker.station_to_first_encounter with
            | some fe =>
              simp only [hg'] at h
              split at h
              · cases hrec : scanStations geo person now tracker rest with
                | error e' => rw [hrec] at h; simp at h
                | ok p =>
                  obtain ⟨tr', elig⟩ := p
                  rw [hrec] at h
                  simp only at h
                  obtain ⟨h1, _⟩ : tr' = tr1 ∧ s' :: elig = e := by simpa using h
                  exact h1 ▸ ih tracker tr' _ hget hrec
              · exact ih tracker tr1 e hget h
            | none =>
              simp only [hg'] at h
              refine ih _ tr1 e ?_ h
              simpa [alGet_alInsert_ne s' s now tracker.station_to_first_encounter hss2]
                using hget
          | false =>
            simp only at h
            refine ih _ tr1 e ?_ h
            simpa [alGet_alRemove_ne s' s tracker.station_to_first_encounter hss2]
              using hget

lemma scanStations_idem (geo : GeoModel) (person : Location) (now : ℤ) :
    ∀ (l : List RegionalRailStop) (tracker tr1 : NoStatusTracker)
      (e : List RegionalRailStop),
      scanStations geo person now tracker l = .ok (tr1, e) →
      scanStations geo person now tr1 l = .ok (tr1, e) := by
  intro l
  induction l with
  | nil =>
    intro tracker tr1 e h
    obtain ⟨h1, h2⟩ : tracker = tr1 ∧ ([] : List RegionalRailStop) = e := by
      simpa [scanStations] using h
    subst h1
    subst h2
    rfl
  | cons s' rest ih =>
    intro tracker tr1 e h
    simp only [scanStations] at h ⊢
    cases hl' : s'.lat_lon with
    | none => simp [hl'] at h
    | some ℓ' =>
      simp only [hl'] at h ⊢
      cases hc' : geo.is_in_circle person ℓ' AT_STATION_ENTER_RADIUS with
      | none => simp [hc'] at h
      | some b' =>
        simp only [hc'] at h ⊢
        cases b' with
        | true =>
          simp only at h ⊢
          cases hg' : alGet s' tracker.station_to_first_encounter with
          | some fe =>
            simp only [hg'] at h
            have hkeep : alGet s' tr1.station_to_first_encounter = some fe := by
              split at h
              · cases hrec : scanStations geo person now tracker rest with
                | error e' => rw [hrec] at h; simp at h
                | ok p =>
                  obtain ⟨tr', elig⟩ := p
                  rw [hrec] at h
                  simp only at h
                  obtain ⟨h1, _⟩ : tr' = tr1 ∧ s' :: elig = e := by simpa using h
                  exact h1 ▸ scanStations_preserve geo person now s' ℓ' (some fe) hl'
                    (.inl ⟨hc', rfl⟩) rest tracker tr' _ hg' hrec
              · exact scanStations_preserve geo person now s' ℓ' (some fe) hl'
                  (.inl ⟨hc', rfl⟩) rest tracker tr1 e hg' h
            simp only [hkeep]
            split at h
            · rename_i hgt
              cases hrec : scanStations geo person now tracker rest with
              | error e' => rw [hrec] at h; simp at h
              | ok p =>
                obtain ⟨tr', elig⟩ := p
                rw [hrec] at h
                simp only at h
                obtain ⟨h1, h2⟩ : tr' = tr1 ∧ s' :: elig = e := by simpa using h
                subst h1
                rw [if_pos hgt, ih tracker tr' elig hrec]
                simp [h2]
            · rename_i hgt
              rw [if_neg hgt]
              exact ih tracker tr1 e h
          | none =>
            simp only [hg'] at h
            have hkeep : alGet s' tr1.station_to_first_encounter = some now := by
              refine scanStations_preserve geo person now s' ℓ' (some now) hl'
                (.inl ⟨hc', rfl⟩) rest _ tr1 e ?_ h
              simpa using alGet_alInsert_self s' now tracker.station_to_first_encounter
            simp only [hkeep]
            rw [if_neg (by simp [durationSince_self, NO_STATUS_TO_AT_STATION])]
            exact ih _ tr1 e h
        | false =>
          simp only at h ⊢
          have hkeep : alGet s' tr1.station_to_first_encounter = none := by
            refine scanStations_preserve geo person now s' ℓ' none hl'
              (.inr ⟨hc', rfl⟩) rest _ tr1 e ?_ h
            simpa using alGet_alRemove_self s' tracker.station_to_first_encounter
          have hrem : alRemove s' tr1.station_to_first_encounter
              = tr1.station_to_first_encounter :=
            alRemove_of_alGet_none s' _ hkeep
          rw [show ({ tr1 with station_to_first_encounter := alRemove s' tr1.station_to_first_encounter } : NoStatusTracker) = tr1 by cases tr1; simp [hrem]]
          exact ih _ tr1 e h

lemma scanStations_no_elig (geo : GeoModel) (person : Location) (now : ℤ) :
    ∀ (l : List RegionalRailStop) (tracker tr1 : NoStatusTracker)
      (e : List RegionalRailStop),
      (∀ st fe, alGet st tracker.station_to_first_encounter = some fe →
        ¬ durationSince now fe > NO_STATUS_TO_AT_STATION) →
      scanStations geo person now tracker l = .ok (tr1, e) → e = [] := by
  intro l
  induction l with
  | nil =>
    intro tracker tr1 e _ h
    obtain ⟨_, h2⟩ : tracker = tr1 ∧ ([] : List RegionalRailStop) = e := by
      simpa [scanStations] using h
    exact h2.symm
  | cons s' rest ih =>
    intro tracker tr1 e hv h
    simp only [scanStations] at h
    cases hl' : s'.lat_lon with
    | none => simp [hl'] at h
    | some ℓ' =>
      simp only [hl'] at h
      cases hc' : geo.is_in_circle person ℓ' AT_STATION_ENTER_RADIUS with
      | none => simp [hc'] at h
      | some b' =>
        simp only [hc'] at h
        cases b' with
        | true =>
          simp only at h
          cases hg' : alGet s' tracker.station_to_first_encounter with
          | some fe =>
            simp only [hg'] at h
            rw [if_neg (hv s' fe hg')] at h
            exact ih tracker tr1 e hv h
          | none =>
            simp only [hg'] at h
            refine ih _ tr1 e ?_ h
            intro st fe hget
            by_cases hst : st = s'
            · subst hst
              have : fe = now := by
                have := alGet_alInsert_self st now tracker.station_to_first_encounter
                simp only at hget
                rw [this] at hget
                exact (Option.some.injEq _ _ ▸ hget.symm)
              subst this
              simp [durationSince_self, NO_STATUS_TO_AT_STATION]
            · refine hv st fe ?_
              have := alGet_alInsert_ne s' st now tracker.station_to_first_encounter hst
              simp only at hget
              rwa [this] at hget
        | false =>
          simp only at h
          refine ih _ tr1 e ?_ h
          intro st fe hget
          by_cases hst : st = s'
          · subst hst
            have := alGet_alRemove_self st tracker.station_to_first_encounter
            simp only at hget
            rw [this] at hget
            cases hget
          · refine hv st fe ?_
            have := alGet_alRemove_ne s' st tracker.station_to_first_encounter hst
            simp only at hget
            rwa [this] at hget

lemma scanStations_elig_inside (geo : GeoModel) (person : Location) (now : ℤ) :
    ∀ (l : List RegionalRailStop) (tracker tr1 : NoStatusTracker)
      (e : List RegionalRailStop),
      scanStations geo person now tracker l = .ok (tr1, e) →
      ∀ st ∈ e, ∃ ℓ, st.lat_lon = some ℓ ∧
        geo.is_in_circle person ℓ AT_STATION_ENTER_RADIUS = some true := by
  intro l
  induction l with
  | nil =>
    intro tracker tr1 e h
    obtain ⟨_, h2⟩ : tracker = tr1 ∧ ([] : List RegionalRailStop) = e := by
      simpa [scanStations] using h
    rw [← h2]
    intro st hst
    cases hst
  | cons s' rest ih =>
    intro tracker tr1 e h
    simp only [scanStations] at h
    cases hl' : s'.lat_lon with
    | none => simp [hl'] at h
    | some ℓ' =>
      simp only [hl'] at h
      cases hc' : geo.is_in_circle person ℓ' AT_STATION_ENTER_RADIUS with
      | none => simp [hc'] at h
      | some b' =>
        simp only [hc'] at h
        cases b' with
        | true =>
          simp only at h
          cases hg' : alGet s' tracker.station_to_first_encounter with
          | some fe =>
            simp only [hg'] at h
            split at h
            · cases hrec : scanStations geo person now tracker rest with
              | error e' => rw [hrec] at h; simp at h
              | ok p =>
                obtain ⟨tr', elig⟩ := p
                rw [hrec] at h
                simp only at h
                obtain ⟨h1, h2⟩ : tr' = tr1 ∧ s' :: elig = e := by simpa using h
                rw [← h2]
                intro st hst
                rcases List.mem_cons.mp hst with rfl | hst'
                · exact ⟨ℓ', hl', hc'⟩
                · exact ih tracker tr' elig hrec st hst'
            · exact ih tracker tr1 e h
          | none =>
            simp only [hg'] at h
            exact ih _ tr1 e h
        | false =>
          simp only at h
          exact ih _ tr1 e h

lemma closestLoop_mem (geo : GeoModel) (person : Location) :
    ∀ (l : List RegionalRailStop) (best : RegionalRailStop) (bd : ℤ)
      (c : RegionalRailStop),
      closestLoop geo person l best bd = .ok c → c = best ∨ c ∈ l := by
  intro l
  induction l with
  | nil =>
    intro best bd c h
    left
    simpa [closestLoop] using h.symm
  | cons s rest ih =>
    intro best bd c h
    simp only [closestLoop] at h
    cases hd : stationDistance geo person s with
    | error e => rw [hd] at h; simp at h
    | ok d =>
      rw [hd] at h
      simp only at h
      split at h
      · rcases ih s d c h with rfl | hmem
        · exact .inr (List.mem_cons_self _ _)
        · exact .inr (List.mem_cons_of_mem _ hmem)
      · rcases ih best bd c h with rfl | hmem
        · exact .inl rfl
        · exact .inr (List.mem_cons_of_mem _ hmem)

lemma scanTrains_preserve_key (geo : GeoModel) (person : Location) (now : ℤ)
    (n : String) :
    ∀ (ts : List Train) (m m1 : List (String × TrainEncounter)) (r : Option String),
      n ∉ ts.map Train.train_number →
      scanTrains geo person now ts m = .ok (m1, r) →
      alGet n m1 = alGet n m := by
  intro ts
  induction ts with
  | nil =>
    intro m m1 r _ h
    obtain ⟨h1, _⟩ : m = m1 ∧ (none : Option String) = r := by
      simpa [scanTrains] using h
    rw [h1]
  | cons t rest ih =>
    intro m m1 r hmem h
    have hne : n ≠ t.train_number := by
      intro hx
      exact hmem (by simp [hx])
    have hmem' : n ∉ rest.map Train.train_number := by
      intro hx
      exact hmem (by simp [hx])
    simp only [scanTrains] at h
    cases hc : geo.is_in_circle person ⟨t.lat, t.lon⟩ ON_TRAIN_ENTER_RADIUS with
    | none => simp [hc] at h
    | some b =>
      simp only [hc] at h
      cases b with
      | false =>
        rw [ih _ m1 r hmem' h]
        exact alGet_alRemove_ne t.train_number n m hne
      | true =>
        simp only at h
        cases hg : alGet t.train_number m with
        | some enc =>
          simp only [hg] at h
          cases hc2 : geo.is_in_circle person ⟨t.lat, t.lon⟩ AT_STATION_LEAVE_RADIUS with
          | none => simp [hc2] at h
          | some cls =>
            simp only [hc2] at h
            split at h
            · obtain ⟨h1, _⟩ : alSet t.train_number (applyClassification now cls enc) m = m1
                  ∧ some t.train_number = r := by simpa using h
              rw [← h1]
              exact alGet_alSet_ne t.train_number n (applyClassification now cls enc) m hne
            · rw [ih _ m1 r hmem' h]
              exact alGet_alSet_ne t.train_number n (applyClassification now cls enc) m hne
        | none =>
          simp only [hg] at h
          cases hc2 : geo.is_in_circle person ⟨t.lat, t.lon⟩ AT_STATION_LEAVE_RADIUS with
          | none => simp [hc2] at h
          | some cls =>
            simp only [hc2] at h
            rw [ih _ m1 r hmem' h]
            exact alGet_alInsert_ne t.train_number n _ m hne

lemma applyClassification_idem (now : ℤ) (cls : Bool) (e : TrainEncounter) :
    applyClassification now cls (applyClassification now cls e)
      = applyClassification now cls e := by
  obtain ⟨i, o⟩ := e
  cases cls <;> cases i <;> cases o <;> rfl

lemma applyClassification_fresh_not_both (now : ℤ) (cls : Bool) :
    ((applyClassification now cls ⟨none, none⟩).first_encounter_inside_station.isSome
      && (applyClassification now cls ⟨none, none⟩).first_encounter_outside_station.isSome)
      = false := by
  cases cls <;> rfl

lemma scanTrains_idem (geo : GeoModel) (person : Location) (now : ℤ) :
    ∀ (ts : List Train) (m m1 : List (String × TrainEncounter)),
      (ts.map Train.train_number).Nodup →
      scanTrains geo person now ts m = .ok (m1, none) →
      scanTrains geo person now ts m1 = .ok (m1, none) := by
  intro ts
  induction ts with
  | nil =>
    intro m m1 _ h
    obtain ⟨h1, _⟩ : m = m1 ∧ (none : Option String) = (none : Option String) := by
      simpa [scanTrains] using h
    subst h1
    rfl
  | cons t rest ih =>
    intro m m1 hnd h
    obtain ⟨hn0, hnd'⟩ : (∀ x ∈ rest, ¬x.train_number = t.train_number)
        ∧ (rest.map Train.train_number).Nodup := by simpa using hnd
    have hn : t.train_number ∉ rest.map Train.train_number := by
      intro hmem
      obtain ⟨x, hx, hxe⟩ := List.mem_map.mp hmem
      exact hn0 x hx hxe
    simp only [scanTrains] at h ⊢
    cases hc : geo.is_in_circle person ⟨t.lat, t.lon⟩ ON_TRAIN_ENTER_RADIUS with
    | none => simp [hc] at h
    | some b =>
      simp only [hc] at h ⊢
      cases b with
      | false =>
        have hgets : alGet t.train_number m1 = none := by
          rw [scanTrains_preserve_key geo person now t.train_number rest _ m1 none hn h]
          exact alGet_alRemove_self _ _
        rw [alRemove_of_alGet_none _ _ hgets]
        exact ih _ m1 hnd' h
      | true =>
        simp only at h ⊢
        cases hg : alGet t.train_number m with
        | some enc =>
          simp only [hg] at h
          cases hc2 : geo.is_in_circle person ⟨t.lat, t.lon⟩ AT_STATION_LEAVE_RADIUS with
          | none => simp [hc2] at h
          | some cls =>
            simp only [hc2] at h
            split at h
            · simp at h
            · rename_i hcond
              have hgets : alGet t.train_number m1
                  = some (applyClassification now cls enc) := by
                rw [scanTrains_preserve_key geo person now t.train_number rest _ m1 none hn h]
                exact alGet_alSet_self _ _ enc m hg
              simp only [hgets, hc2, applyClassification_idem]
              rw [if_neg hcond, alSet_of_alGet_eq _ _ m1 hgets]
              exact ih _ m1 hnd' h
        | none =>
          simp only [hg] at h
          cases hc2 : geo.is_in_circle person ⟨t.lat, t.lon⟩ AT_STATION_LEAVE_RADIUS with
          | none => simp [hc2] at h
          | some cls =>
            simp only [hc2] at h
            have hgets : alGet t.train_number m1
                = some (applyClassification now cls ⟨none, none⟩) := by
              rw [scanTrains_preserve_key geo person now t.train_number rest _ m1 none hn h]
              exact alGet_alInsert_self _ _ m
            simp only [hgets, hc2, applyClassification_idem]
            rw [if_neg (by simp [applyClassification_fresh_not_both now cls]),
              alSet_of_alGet_eq _ _ m1 hgets]
            exact ih _ m1 hnd' h

lemma find?_first {α : Type} (p : α → Bool) :
    ∀ (pre : List α) (t : α) (post : List α),
      (∀ x ∈ pre, p x = false) → p t = true →
      (pre ++ t :: post).find? p = some t := by
  intro pre
  induction pre with
  | nil => intro t post _ hp; simp [List.find?, hp]
  | cons x rest ih =>
    intro t post hall hp
    have hx : p x = false := hall x (List.mem_cons_self _ _)
    simpa [List.find?, hx] using ih t post
      (fun y hy => hall y (List.mem_cons_of_mem _ hy)) hp

lemma scanTrains_fire_find (geo : GeoModel) (person : Location) (now : ℤ)
    (ts : List Train) (m m1 : List (String × TrainEncounter)) (T : String)
    (hnd : (ts.map Train.train_number).Nodup)
    (h : scanTrains geo person now ts m = .ok (m1, some T)) :
    ∃ t, ts.find? (fun x => x.train_number == T) = some t ∧
      t.train_number = T ∧
      geo.is_in_circle person ⟨t.lat, t.lon⟩ ON_TRAIN_ENTER_RADIUS = some true := by
  obtain ⟨pre, t, post, mid, enc0, hsplit, hT, _, h400, _⟩ :=
    scanTrains_fire_split geo person now ts m m1 T h
  subst hsplit
  refine ⟨t, ?_, hT, h400⟩
  apply find?_first
  · intro x hx
    have hdisj : List.Disjoint (pre.map Train.train_number)
        ((t :: post).map Train.train_number) := by
      apply List.disjoint_of_nodup_append
      simpa using hnd
    have hxne : x.train_number ≠ t.train_number := by
      intro he
      exact hdisj (List.mem_map_of_mem _ hx) (by simp [he])
    simp [hT ▸ hxne]
  · simp [hT]

lemma fallbackStationScan_found (geo : GeoModel) (person : Location) :
    ∀ (l : List RegionalRailStop) (st : RegionalRailStop),
      fallbackStationScan geo person l = .ok (some st) →
      ∃ ℓ, st.lat_lon = some ℓ ∧
        geo.is_in_circle person ℓ AT_STATION_ENTER_RADIUS = some true := by
  intro l
  induction l with
  | nil => intro st h; simp [fallbackStationScan] at h
  | cons s rest ih =>
    intro st h
    simp only [fallbackStationScan] at h
    cases hl : s.lat_lon with
    | none => simp [hl] at h
    | some ℓ =>
      simp only [hl] at h
      cases hc : geo.is_in_circle person ℓ AT_STATION_ENTER_RADIUS with
      | none => simp [hc] at h
      | some b =>
        simp only [hc] at h
        cases b with
        | true =>
          have hss : s = st := by simpa using h
          subst hss
          exact ⟨ℓ, hl, hc⟩
        | false => exact ih st h

lemma fresh_noStatus_second (geo : GeoModel) (catalog : List RegionalRailStop)
    (person : Location) (trains : List Train) (now : ℤ) (s2 : State)
    (h2 : update_state_inner geo catalog person trains now (.NoStatus ⟨[]⟩) = .ok s2) :
    sameIdentity (.NoStatus ⟨[]⟩) s2 := by
  simp only [update_state_inner] at h2
  cases hscan : scanStations geo person now ⟨[]⟩ (catalog.filter (fun p => !p.isUnknown)) with
  | error e => rw [hscan] at h2; simp at h2
  | ok p =>
    obtain ⟨tr2, e2⟩ := p
    have he2 : e2 = [] := by
      refine scanStations_no_elig geo person now _ ⟨[]⟩ tr2 e2 ?_ hscan
      intro st fe hget
      simp [alGet] at hget
    subst he2
    rw [hscan] at h2
    simp only at h2
    have hs2 : State.NoStatus tr2 = s2 := by simpa using h2
    rw [← hs2]
    simp [sameIdentity]

lemma fresh_atStation_second (geo : GeoModel) (catalog : List RegionalRailStop)
    (person : Location) (trains : List Train) (now : ℤ) (st : RegionalRailStop)
    (ℓ : Location) (s2 : State)
    (hnd : (trains.map Train.train_number).Nodup)
    (hl : st.lat_lon = some ℓ)
    (hin : geo.is_in_circle person ℓ AT_STATION_ENTER_RADIUS = some true)
    (h2 : update_state_inner geo catalog person trains now
      (.AtStation ⟨st, [], none⟩) = .ok s2) :
    sameIdentity (.AtStation ⟨st, [], none⟩) s2 := by
  have hin' : geo.is_in_circle person ℓ AT_STATION_LEAVE_RADIUS = some true := hin
  simp only [update_state_inner] at h2
  simp [hl, hin', leaveCheck] at h2
  cases hs : scanTrains geo person now trains [] with
  | error e =>
    rw [hs] at h2
    simp at h2
  | ok p =>
    obtain ⟨m2, r2⟩ := p
    have hr2 : r2 = none := by
      refine scanTrains_no_fire geo person now trains [] m2 r2 hnd ?_ hs
      intro n e _ hget
      simp [alGet] at hget
    subst hr2
    rw [hs] at h2
    simp only at h2
    have hs2 : State.AtStation ⟨st, m2, none⟩ = s2 := by simpa using h2
    rw [← hs2]
    simp [sameIdentity]

/-- C10 (amended): for snapshots with pairwise-distinct train identifiers,
applying `advance` a second time with the snapshot, location and `now`
unchanged yields a state with the same variant and the same identifying
fields (station, train id, left-at timestamp, last-seen timestamp) as the
first application; only the auxiliary candidacy/encounter maps may differ,
because a variant change resets them and the second application repopulates
them. -/
theorem C10_amended_variant_idempotent (geo : GeoModel)
    (catalog : List RegionalRailStop) (person : Location) (trains : List Train)
    (now : ℤ) (s s1 s2 : State)
    (hnd : (trains.map Train.train_number).Nodup)
    (h1 : update_state_inner geo catalog person trains now s = .ok s1)
    (h2 : update_state_inner geo catalog person trains now s1 = .ok s2) :
    sameIdentity s1 s2 := by
  cases s with
  | NoStatus tr0 =>
    simp only [update_state_inner] at h1
    cases hscan : scanStations geo person now tr0
        (catalog.filter (fun p => !p.isUnknown)) with
    | error e => rw [hscan] at h1; simp at h1
    | ok p =>
      obtain ⟨tr1, e⟩ := p
      rw [hscan] at h1
      simp only at h1
      cases e with
      | nil =>
        have hs1 : State.NoStatus tr1 = s1 := by simpa using h1
        subst hs1
        have hidem := scanStations_idem geo person now _ tr0 tr1 [] hscan
        simp only [update_state_inner, hidem] at h2
        have hs2 : State.NoStatus tr1 = s2 := by simpa using h2
        rw [← hs2]
        simp [sameIdentity]
      | cons st0 erest =>
        cases erest with
        | nil =>
          have hs1 : State.AtStation ⟨st0, [], none⟩ = s1 := by simpa using h1
          obtain ⟨ℓ, hl, hin⟩ :=
            scanStations_elig_inside geo person now _ tr0 tr1 _ hscan st0 (by simp)
          rw [← hs1] at h2 ⊢
          exact fresh_atStation_second geo catalog person trains now st0 ℓ s2
            hnd hl hin h2
        | cons st1 er2 =>
          simp only at h1
          cases hd0 : stationDistance geo person st0 with
          | error e' => rw [hd0] at h1; simp at h1
          | ok d0 =>
            rw [hd0] at h1
            simp only at h1
            cases hcl : closestLoop geo person (st0 :: st1 :: er2) st0 d0 with
            | error e' => rw [hcl] at h1; simp at h1
            | ok c =>
              rw [hcl] at h1
              have hs1 : State.AtStation ⟨c, [], none⟩ = s1 := by simpa using h1
              have hcmem : c ∈ st0 :: st1 :: er2 := by
                rcases closestLoop_mem geo person _ st0 d0 c hcl with rfl | hm
                · simp
                · exact hm
              obtain ⟨ℓ, hl, hin⟩ :=
                scanStations_elig_inside geo person now _ tr0 tr1 _ hscan c hcmem
              rw [← hs1] at h2 ⊢
              exact fresh_atStation_second geo catalog person trains now c ℓ s2
                hnd hl hin h2
  | AtStation tr0 =>
    obtain ⟨st0, map0, time0⟩ := tr0
    simp only [update_state_inner] at h1
    cases hl : st0.lat_lon with
    | none => simp [hl] at h1
    | some ℓ =>
      simp only [hl] at h1
      cases hc : geo.is_in_circle person ℓ AT_STATION_LEAVE_RADIUS with
      | none => simp [hc] at h1
      | some b =>
        simp only [hc] at h1
        cases b with
        | true =>
          simp [leaveCheck] at h1
          cases hs1scan : scanTrains geo person now trains map0 with
          | error e => rw [hs1scan] at h1; simp at h1
          | ok p =>
            obtain ⟨m1, matched⟩ := p
            rw [hs1scan] at h1
            simp only at h1
            cases matched with
            | some T =>
              have hs1 : State.OnTrain ⟨T, now⟩ = s1 := by simpa using h1
              subst hs1
              obtain ⟨t, hfind, hTeq, h400⟩ :=
                scanTrains_fire_find geo person now trains map0 m1 T hnd hs1scan
              have h400' : geo.is_in_circle person ⟨t.lat, t.lon⟩
                  ON_TRAIN_REMAIN_RADIUS = some true := h400
              simp only [update_state_inner] at h2
              rw [hfind] at h2
              simp only [h400'] at h2
              have hs2 : State.OnTrain ⟨T, now⟩ = s2 := by simpa using h2
              rw [← hs2]
              simp [sameIdentity]
            | none =>
              have hs1 : State.AtStation ⟨st0, m1, none⟩ = s1 := by simpa using h1
              subst hs1
              simp only [update_state_inner] at h2
              simp [hl, hc, leaveCheck] at h2
              rw [scanTrains_idem geo person now trains map0 m1 hnd hs1scan] at h2
              simp only at h2
              have hs2 : State.AtStation ⟨st0, m1, none⟩ = s2 := by simpa using h2
              rw [← hs2]
              simp [sameIdentity]
        | false =>
          cases time0 with
          | none =>
            simp [leaveCheck] at h1
            cases hs1scan : scanTrains geo person now trains map0 with
            | error e => rw [hs1scan] at h1; simp at h1
            | ok p =>
              obtain ⟨m1, matched⟩ := p
              rw [hs1scan] at h1
              simp only at h1
              cases matched with
              | some T =>
                have hs1 : State.OnTrain ⟨T, now⟩ = s1 := by simpa using h1
                subst hs1
                obtain ⟨t, hfind, hTeq, h400⟩ :=
                  scanTrains_fire_find geo person now trains map0 m1 T hnd hs1scan
                have h400' : geo.is_in_circle person ⟨t.lat, t.lon⟩
                    ON_TRAIN_REMAIN_RADIUS = some true := h400
                simp only [update_state_inner] at h2
                rw [hfind] at h2
                simp only [h400'] at h2
                have hs2 : State.OnTrain ⟨T, now⟩ = s2 := by simpa using h2
                rw [← hs2]
                simp [sameIdentity]
              | none =>
                have hs1 : State.AtStation ⟨st0, m1, some now⟩ = s1 := by
                  simpa using h1
                subst hs1
                simp only [update_state_inner] at h2
                simp [hl, hc, leaveCheck, durationSince_self,
                  AT_STATION_TO_NO_STATUS_TIMEOUT] at h2
                rw [scanTrains_idem geo person now trains map0 m1 hnd hs1scan] at h2
                simp only at h2
                have hs2 : State.AtStation ⟨st0, m1, some now⟩ = s2 := by
                  simpa using h2
                rw [← hs2]
                simp [sameIdentity]
          | some t0 =>
            simp [leaveCheck] at h1
            split at h1
            · rename_i htime
              have hs1 : State.NoStatus ⟨[]⟩ = s1 := by simpa using h1
              rw [← hs1] at h2 ⊢
              exact fresh_noStatus_second geo catalog person trains now s2 h2
            · rename_i htime
              cases hs1scan : scanTrains geo person now trains map0 with
              | error e => rw [hs1scan] at h1; simp at h1
              | ok p =>
                obtain ⟨m1, matched⟩ := p
                rw [hs1scan] at h1
                simp only at h1
                cases matched with
                | some T =>
                  have hs1 : State.OnTrain ⟨T, now⟩ = s1 := by simpa using h1
                  subst hs1
                  obtain ⟨t, hfind, hTeq, h400⟩ :=
                    scanTrains_fire_find geo person now trains map0 m1 T hnd hs1scan
                  have h400' : geo.is_in_circle person ⟨t.lat, t.lon⟩
                      ON_TRAIN_REMAIN_RADIUS = some true := h400
                  simp only [update_state_inner] at h2
                  rw [hfind] at h2
                  simp only [h400'] at h2
                  have hs2 : State.OnTrain ⟨T, now⟩ = s2 := by simpa using h2
                  rw [← hs2]
                  simp [sameIdentity]
                | none =>
                  have hs1 : State.AtStation ⟨st0, m1, some t0⟩ = s1 := by
                    simpa using h1
                  subst hs1
                  simp only [update_state_inner] at h2
                  simp [hl, hc, leaveCheck, htime] at h2
                  rw [scanTrains_idem geo person now trains map0 m1 hnd hs1scan] at h2
                  simp only at h2
                  have hs2 : State.AtStation ⟨st0, m1, some t0⟩ = s2 := by
                    simpa using h2
                  rw [← hs2]
                  simp [sameIdentity]
  | OnTrain tt0 =>
    obtain ⟨id0, last0⟩ := tt0
    simp only [update_state_inner] at h1
    cases hf : trains.find? (fun train => train.train_number == id0) with
    | none =>
      rw [hf] at h1
      simp only at h1
      have hs1 : State.NoStatus ⟨[]⟩ = s1 := by simpa using h1
      rw [← hs1] at h2 ⊢
      exact fresh_noStatus_second geo catalog person trains now s2 h2
    | some t =>
      rw [hf] at h1
      simp only at h1
      cases hc : geo.is_in_circle person ⟨t.lat, t.lon⟩ ON_TRAIN_REMAIN_RADIUS with
      | none => simp [hc] at h1
      | some b =>
        simp only [hc] at h1
        cases b with
        | true =>
          have hs1 : State.OnTrain ⟨id0, now⟩ = s1 := by simpa using h1
          subst hs1
          simp only [update_state_inner] at h2
          rw [hf] at h2
          simp only [hc] at h2
          have hs2 : State.OnTrain ⟨id0, now⟩ = s2 := by simpa using h2
          rw [← hs2]
          simp [sameIdentity]
        | false =>
          simp only at h1
          split at h1
          · rename_i htime
            cases hfb : fallbackStationScan geo person catalog with
            | error e => rw [hfb] at h1; simp at h1
            | ok r =>
              rw [hfb] at h1
              cases r with
              | some st =>
                simp only at h1
                have hs1 : State.AtStation ⟨st, [], none⟩ = s1 := by simpa using h1
                obtain ⟨ℓ, hl, hin⟩ :=
                  fallbackStationScan_found geo person catalog st hfb
                rw [← hs1] at h2 ⊢
                exact fresh_atStation_second geo catalog person trains now st ℓ s2
                  hnd hl hin h2
              | none =>
                simp only at h1
                have hs1 : State.NoStatus ⟨[]⟩ = s1 := by simpa using h1
                rw [← hs1] at h2 ⊢
                exact fresh_noStatus_second geo catalog person trains now s2 h2
          · rename_i htime
            have hs1 : State.OnTrain ⟨id0, last0⟩ = s1 := by simpa using h1
            subst hs1
            simp only [update_state_inner] at h2
            rw [hf] at h2
            simp only [hc] at h2
            rw [if_neg htime] at h2
            have hs2 : State.OnTrain ⟨id0, last0⟩ = s2 := by simpa using h2
            rw [← hs2]
            simp [sameIdentity]

/-- Witness for C10 (amended): the counterexample input — first application
lands in a fresh `NoStatus`, the second repopulates the candidacy map — still
agrees on the variant. -/
theorem C10_amended_witness :
    sameIdentity (.NoStatus ⟨[]⟩) (.NoStatus ⟨[(stX, 7)]⟩) :=
  C10_amended_variant_idempotent geoInsideAll [stX] locP [] 7
    (.OnTrain ⟨"T", 0⟩) (.NoStatus ⟨[]⟩) (.NoStatus ⟨[(stX, 7)]⟩)
    (by simp) rfl rfl
